import Mathlib

/-!
Verification of the Conway Game of Life simulation engine in `src/main.js`
(class `Runner`).  The engine state is the pair of jagged arrays
`this.grid` (cells, `Uint8Array` rows holding 0/1) and `this.deathCounts`
(`Uint16Array` rows).  Cells are modelled as `Bool` (alive = `true`), death
counts as `Nat` with the `Uint16` wrap-around written out as `% 65536`.
Fallible JavaScript operations (reading `this.grid[0].length` on an empty
grid, indexing a missing row, the typed-array allocation with a negative
length) are modelled with `Option`.

The single mutating loop of `updateGrid` writes the next generation into
`this.nextGrid`, bumps `this.deathCounts`, records transitions and sets
`changed`; none of those writes is read back inside the same loop (the
neighbour counts read only `this.grid`), so the loop is rendered here as
separate passes over the same pre-step grid, one per output.

Grids whose rows have unequal lengths violate the data-model invariant
(`rectangular` below); the embedding represents row reads as checked access
and is faithful on rectangular grids, which is the domain of every theorem.
-/

namespace Conway

/-- The three boundary modes.  The source stores them as the mutually
exclusive flags `this.toroidal` / `this.infinite` driven by a single
`<select>`, i.e. exactly one variant is active. -/
inductive Policy
  | finite
  | toroidal
  | infinite
deriving DecidableEq, Repr

/-- `this.grid`: row-major list of rows of cells. -/
abbrev Grid := List (List Bool)

/-- `this.deathCounts`: same shape, `Uint16` entries. -/
abbrev Counts := List (List Nat)

/-- The grid/deathCounts pair owned by the engine. -/
structure GridState where
  grid : Grid
  deathCounts : Counts
deriving DecidableEq, Repr

/-- Kind of a recorded cell transition (`'birth'` / `'death'` in the source). -/
inductive TransKind
  | birth
  | death
deriving DecidableEq, Repr

/-- What one call of `updateGrid` produces: the next state, the transition
events set during the tick, and the `changed` return value. -/
structure StepResult where
  state : GridState
  transitions : List (Nat × Nat × TransKind)
  changed : Bool
deriving DecidableEq, Repr

/-- `this.grid[0].length`, with `0` for the empty grid (callers that reach
this with an empty grid are modelled as failing before using it). -/
def cols (g : Grid) : Nat := (g.headD []).length

/-- Entry of a jagged matrix with an explicit default (out-of-range reads
of a typed array yield `undefined`, which compares as dead / zero). -/
def entry (d : α) (m : List (List α)) (r c : Nat) : α := (m.getD r []).getD c d

/-- Cell read `this.grid[r][c] === 1`. -/
def cellCurr (g : Grid) (r c : Nat) : Bool := entry false g r c

/-- Death-count read `this.deathCounts[r][c]`. -/
def countAt (cts : Counts) (r c : Nat) : Nat := entry 0 cts r c

/-- Data-model invariant: every row has the length of row 0. -/
def rectangular (g : Grid) : Prop := ∀ row ∈ g, row.length = cols g

/-- The counts structure has exactly the same shape as the grid. -/
def sameShape (cts : Counts) (g : Grid) : Prop :=
  cts.map List.length = g.map List.length

instance decRectangular (g : Grid) : Decidable (rectangular g) :=
  inferInstanceAs (Decidable (∀ row ∈ g, row.length = cols g))

instance decSameShape (cts : Counts) (g : Grid) : Decidable (sameShape cts g) :=
  inferInstanceAs (Decidable (cts.map List.length = g.map List.length))

/-- The 8 Moore-neighbourhood offsets, in source order (`directions`). -/
def directions : List (Int × Int) :=
  [(-1, -1), (-1, 0), (-1, 1), (0, -1), (0, 1), (1, -1), (1, 0), (1, 1)]

/-- Checked double indexing `grid[r][c]`: a negative or out-of-range index
is an error (`undefined` propagating into the count). -/
def getCell (g : Grid) (r c : Int) : Option Bool :=
  if 0 ≤ r ∧ 0 ≤ c then (g.get? r.toNat).bind fun row => row.get? c.toNat
  else none

/-- `countAliveNeighbors(row, col)` of the source: iterates `directions`,
wrapping both coordinates with `((n + size) % size)` in toroidal mode and
bounds-checking them otherwise.  Reading `this.grid[0].length` fails on an
empty grid.  (JavaScript `%` is the truncated remainder; it agrees with
`Int.emod` whenever the dividend is nonnegative, which holds for every call
the stepper makes, where `0 ≤ row < rows` and `0 ≤ col < cols`.)
`neighborStep` is the body of the `directions.forEach` accumulation. -/
def neighborStep (g : Grid) (numRows numCols : Int) (tor : Bool) (row col : Int)
    (count : Nat) (d : Int × Int) : Option Nat :=
  let newRow := row + d.1
  let newCol := col + d.2
  if tor then
    (getCell g ((newRow + numRows) % numRows) ((newCol + numCols) % numCols)).map
      fun b => count + (if b then 1 else 0)
  else
    if 0 ≤ newRow ∧ newRow < numRows ∧ 0 ≤ newCol ∧ newCol < numCols then
      (getCell g newRow newCol).map fun b => count + (if b then 1 else 0)
    else pure count

def countAliveNeighbors (g : Grid) (tor : Bool) (row col : Int) : Option Nat :=
  match g with
  | [] => none
  | r0 :: _ =>
    directions.foldlM (neighborStep g (g.length : Int) (r0.length : Int) tor row col) 0

/-- Total form of the contribution of one Moore offset, used to state what
`countAliveNeighbors` returns. -/
def mooreContribution (g : Grid) (tor : Bool) (row col : Int) (d : Int × Int) : Nat :=
  let numRows : Int := g.length
  let numCols : Int := cols g
  let nr := row + d.1
  let nc := col + d.2
  if tor then
    if cellCurr g ((nr + numRows) % numRows).toNat ((nc + numCols) % numCols).toNat then 1 else 0
  else
    if 0 ≤ nr ∧ nr < numRows ∧ 0 ≤ nc ∧ nc < numCols then
      if cellCurr g nr.toNat nc.toNat then 1 else 0
    else 0

/-- Total neighbour count: the sum of the 8 Moore contributions. -/
def neighborSpec (g : Grid) (tor : Bool) (row col : Int) : Nat :=
  (directions.map (mooreContribution g tor row col)).sum

/-- The neighbour count used by `isAliveNextEpoch`: bounds-checked (finite)
semantics, total once the grid is nonempty. -/
def finiteNeighborCount (g : Grid) (row col : Int) : Nat :=
  (directions.map fun d =>
    let nr := row + d.1
    let nc := col + d.2
    if 0 ≤ nr ∧ nr < (g.length : Int) ∧ 0 ≤ nc ∧ nc < (cols g : Int) then
      if cellCurr g nr.toNat nc.toNat then 1 else 0
    else 0).sum

/-- `isAliveNextEpoch(row, col)`: would a (dead, possibly virtual) cell at
`(row, col)` be born next tick, counting out-of-range neighbours as dead?
Reads `this.grid[0].length`, so it fails on an empty grid. -/
def isAliveNextEpoch (g : Grid) (row col : Int) : Option Bool :=
  match g with
  | [] => none
  | _ :: _ => some (finiteNeighborCount g row col == 3)

/-- The four per-edge growth flags of `updateGrid`'s infinite branch. -/
structure EdgeFlags where
  top : Bool
  bottom : Bool
  left : Bool
  right : Bool
deriving DecidableEq, Repr

/-- The flag computation of `updateGrid` lines 607–622: each edge scans its
adjacent virtual positions with `isAliveNextEpoch` (whose body, with the
empty-grid failure handled by the surrounding match, is
`finiteNeighborCount == 3`).  All four flags are computed on the
pre-expansion grid before any expansion is applied. -/
def edgeFlags (g : Grid) : Option EdgeFlags :=
  match g with
  | [] => none
  | _ :: _ =>
    some
      { top := (List.range (cols g)).any fun c => finiteNeighborCount g (-1) (c : Int) == 3
        bottom := (List.range (cols g)).any fun c =>
          finiteNeighborCount g (g.length : Int) (c : Int) == 3
        left := (List.range g.length).any fun r => finiteNeighborCount g (r : Int) (-1) == 3
        right := (List.range g.length).any fun r =>
          finiteNeighborCount g (r : Int) (cols g : Int) == 3 }

/-- `rows × ncols` all-dead grid (`new Uint8Array(ncols)` rows). -/
def mkDeadGrid (rows ncols : Nat) : Grid := List.replicate rows (List.replicate ncols false)

/-- `rows × ncols` all-zero counts (`new Uint16Array(ncols)` rows). -/
def mkZeroCounts (rows ncols : Nat) : Counts := List.replicate rows (List.replicate ncols 0)

/-- `expandGrid('top', amount)`: unshifts `amount` rows of `numCols` dead
cells / zero counts. -/
def expandTop (g : Grid) (cts : Counts) (amount : Nat) : Grid × Counts :=
  (List.replicate amount (List.replicate (cols g) false) ++ g,
   List.replicate amount (List.replicate (cols g) 0) ++ cts)

/-- `expandGrid('bottom', amount)`. -/
def expandBottom (g : Grid) (cts : Counts) (amount : Nat) : Grid × Counts :=
  (g ++ List.replicate amount (List.replicate (cols g) false),
   cts ++ List.replicate amount (List.replicate (cols g) 0))

/-- `expandGrid('left', amount)`: each row is copied into a fresh row of
`numCols + amount` entries at offset `amount` (equal, on rectangular data,
to prepending `amount` dead/zero entries). -/
def expandLeft (g : Grid) (cts : Counts) (amount : Nat) : Grid × Counts :=
  (g.map fun row => List.replicate amount false ++ row,
   cts.map fun row => List.replicate amount 0 ++ row)

/-- `expandGrid('right', amount)`. -/
def expandRight (g : Grid) (cts : Counts) (amount : Nat) : Grid × Counts :=
  (g.map fun row => row ++ List.replicate amount false,
   cts.map fun row => row ++ List.replicate amount 0)

/-- The growth phase of `updateGrid` (lines 606–627): only in infinite
mode, compute all four flags on the current grid, then expand each flagged
edge by 10, in the order top, bottom, left, right. -/
def growPhase (s : GridState) (pol : Policy) : Option (Grid × Counts) :=
  match pol with
  | Policy.infinite =>
    match edgeFlags s.grid with
    | none => none
    | some f =>
      let gc0 := (s.grid, s.deathCounts)
      let gc1 := if f.top then expandTop gc0.1 gc0.2 10 else gc0
      let gc2 := if f.bottom then expandBottom gc1.1 gc1.2 10 else gc1
      let gc3 := if f.left then expandLeft gc2.1 gc2.2 10 else gc2
      let gc4 := if f.right then expandRight gc3.1 gc3.2 10 else gc3
      some gc4
  | _ => some (s.grid, s.deathCounts)

/-- The per-cell rule of `updateGrid` lines 643–652: an alive cell dies on
fewer than 2 or more than 3 neighbours, a dead cell is born on exactly 3. -/
def ruleNext (curr : Bool) (n : Nat) : Bool :=
  if curr then (if n < 2 ∨ 3 < n then false else true)
  else (if n == 3 then true else false)

/-- All `(r, c)` pairs visited by the double loop, in row-major order. -/
def cellsList (rows ncols : Nat) : List (Nat × Nat) :=
  (List.range rows).flatMap fun r => (List.range ncols).map fun c => (r, c)

/-- The next-generation values (the writes `nextRow[c] = next`). -/
def nextValsOpt (g : Grid) (tor : Bool) : Option Grid :=
  (List.range g.length).mapM fun (r : Nat) =>
    (List.range (cols g)).mapM fun (c : Nat) =>
      (countAliveNeighbors g tor (r : Int) (c : Int)).map fun n =>
        ruleNext (cellCurr g r c) n

/-- `this.deathCounts[r][c] += 1`: a missing row is an error; a write past
the end of a `Uint16Array` row is silently dropped; the stored value wraps
at 2^16. -/
def bumpCounts (cts : Counts) (r c : Nat) : Option Counts :=
  match cts.get? r with
  | none => none
  | some row => some (cts.set r (row.set c ((row.getD c 0 + 1) % 65536)))

/-- The death-count updates of the loop: bump `(r, c)` exactly when the
cell is alive and its next value is dead. -/
def countsOpt (g : Grid) (tor : Bool) (cts : Counts) : Option Counts :=
  (cellsList g.length (cols g)).foldlM
    (fun acc rc =>
      (countAliveNeighbors g tor (rc.1 : Int) (rc.2 : Int)).bind fun n =>
        if cellCurr g rc.1 rc.2 && !(ruleNext (cellCurr g rc.1 rc.2) n) then
          bumpCounts acc rc.1 rc.2
        else pure acc)
    cts

/-- The transition events set during the loop (`this.transitions.set`),
in row-major order: one event per cell whose value changed. -/
def transitionsOpt (g : Grid) (tor : Bool) : Option (List (Nat × Nat × TransKind)) :=
  (cellsList g.length (cols g)).foldlM
    (fun acc rc =>
      (countAliveNeighbors g tor (rc.1 : Int) (rc.2 : Int)).map fun n =>
        let curr := cellCurr g rc.1 rc.2
        let nv := ruleNext curr n
        if nv != curr then
          acc ++ [(rc.1, rc.2, if nv then TransKind.birth else TransKind.death)]
        else acc)
    []

/-- The `changed` accumulator of the loop. -/
def changedOpt (g : Grid) (tor : Bool) : Option Bool :=
  (cellsList g.length (cols g)).foldlM
    (fun acc rc =>
      (countAliveNeighbors g tor (rc.1 : Int) (rc.2 : Int)).map fun n =>
        acc || (ruleNext (cellCurr g rc.1 rc.2) n != cellCurr g rc.1 rc.2))
    false

/-- Writing the computed values into one buffer row: positions `c < cols`
receive the new value, writes past the end of the typed-array row are
dropped, and entries of the row beyond `cols` keep their old value. -/
def mergeRow : List Bool → List Bool → List Bool
  | [], _ => []
  | v :: old, [] => v :: old
  | _ :: old, v :: vals => v :: mergeRow old vals

/-- The buffer-shape test of `updateGrid` line 631: the second buffer is
kept only when its row count and first-row length match the grid. -/
def nextBufferOk (buf : Grid) (rows ncols : Nat) : Bool :=
  buf.length == rows && (buf.headD []).length == ncols

/-- `updateGrid` with an explicit second buffer (`this.nextGrid`): grow (if
infinite), fail on an empty grid (`this.grid[0].length`), reallocate the
buffer when its shape does not match, then run the rule pass.  The pass is
rendered as one sub-computation per output of the loop; all of them read
only the pre-step grid, exactly as the source loop does. -/
def stepWithBuffer (s : GridState) (buf : Grid) (pol : Policy) : Option StepResult :=
  match growPhase s pol with
  | none => none
  | some (g, cts) =>
    match g with
    | [] => none
    | _ :: _ =>
      let rows := g.length
      let ncols := cols g
      let tor := pol == Policy.toroidal
      let buf1 := if nextBufferOk buf rows ncols then buf else mkDeadGrid rows ncols
      match nextValsOpt g tor with
      | none => none
      | some vals =>
        match countsOpt g tor cts with
        | none => none
        | some cts2 =>
          match transitionsOpt g tor with
          | none => none
          | some trs =>
            match changedOpt g tor with
            | none => none
            | some chg => some ⟨⟨List.zipWith mergeRow buf1 vals, cts2⟩, trs, chg⟩

/-- One tick with a fresh (hence reallocated) buffer: the `step` of the
specification. -/
def stepFn (s : GridState) (pol : Policy) : Option StepResult := stepWithBuffer s [] pol

/-- `createGrid(rows, cols)`: `Array.from({length: rows}, ...)` clamps a
negative `rows` to 0 (so the row constructor never runs), while
`new Uint8Array(cols)` with a negative `cols` throws a `RangeError`; there
is no dedicated validation. -/
def createGrid (rows ncols : Int) : Option GridState :=
  if 0 < rows ∧ ncols < 0 then none
  else
    some ⟨List.replicate rows.toNat (List.replicate ncols.toNat false),
          List.replicate rows.toNat (List.replicate ncols.toNat 0)⟩

/-- `isGridBlank()`: every cell is dead. -/
def isGridBlank (g : Grid) : Bool := g.all fun row => row.all fun cell => !cell

/-- The slice of `Runner` state touched by the interactive painting
handlers: the grid, the death counts and the transition map.  The paint
paths write only `this.grid`. -/
structure RunnerState where
  grid : Grid
  deathCounts : Counts
  transitions : List (Nat × Nat × TransKind)
deriving DecidableEq, Repr

/-- One write `this.grid[row][col] = 1` (from `applyPreviewCells`): a
missing row is an error, an out-of-range column write on a typed array is
dropped. -/
def setCellAlive (g : Grid) (r c : Nat) : Option Grid :=
  match g.get? r with
  | none => none
  | some row => some (g.set r (row.set c true))

/-- `applyPreviewCells()`: set every previewed cell alive. -/
def applyPreviewCells (s : RunnerState) (cells : List (Nat × Nat)) : Option RunnerState :=
  (cells.foldlM (fun g rc => setCellAlive g rc.1 rc.2) s.grid).map
    fun g2 => { s with grid := g2 }

/-- The single-cell toggle of the `mouseup` handler:
`this.grid[row][col] = this.grid[row][col] ? 0 : 1`. -/
def toggleCell (s : RunnerState) (r c : Nat) : Option RunnerState :=
  match s.grid.get? r with
  | none => none
  | some row => some { s with grid := s.grid.set r (row.set c (!(row.getD c false))) }

/-! Total ("specification level") descriptions of what the fallible pass
computations return on well-formed input.  The theorems below prove that
the embedded source functions produce exactly these values. -/

/-- The next-generation grid: rule applied to every cell of the pre-step
grid. -/
def nextGridSpec (g : Grid) (tor : Bool) : Grid :=
  (List.range g.length).map fun r =>
    (List.range (cols g)).map fun c => ruleNext (cellCurr g r c) (neighborSpec g tor r c)

/-- Does the cell die this tick (alive now, dead next)? -/
def diedAt (g : Grid) (tor : Bool) (rc : Nat × Nat) : Bool :=
  cellCurr g rc.1 rc.2 && !(ruleNext (cellCurr g rc.1 rc.2) (neighborSpec g tor rc.1 rc.2))

/-- Total form of one `deathCounts[r][c] += 1` on a `Uint16Array`. -/
def bumpTotal (cts : Counts) (r c : Nat) : Counts :=
  cts.set r ((cts.getD r []).set c (((cts.getD r []).getD c 0 + 1) % 65536))

/-- The death counts after the tick: one wrap-around increment per dying
cell. -/
def countsSpec (g : Grid) (tor : Bool) (cts : Counts) : Counts :=
  ((cellsList g.length (cols g)).filter (diedAt g tor)).foldl
    (fun acc rc => bumpTotal acc rc.1 rc.2) cts

/-- The transition events of the tick, in row-major order. -/
def transitionsSpec (g : Grid) (tor : Bool) : List (Nat × Nat × TransKind) :=
  (cellsList g.length (cols g)).filterMap fun rc =>
    let curr := cellCurr g rc.1 rc.2
    let nv := ruleNext curr (neighborSpec g tor rc.1 rc.2)
    if nv != curr then some (rc.1, rc.2, if nv then TransKind.birth else TransKind.death)
    else none

/-- The `changed` flag of the tick. -/
def changedSpecF (g : Grid) (tor : Bool) : Bool :=
  (cellsList g.length (cols g)).any fun rc =>
    ruleNext (cellCurr g rc.1 rc.2) (neighborSpec g tor rc.1 rc.2) != cellCurr g rc.1 rc.2

/-- Closed form of the growth phase: pad `t`/`b` rows of `m` entries on
top/bottom, then `l`/`rr` entries on the left/right of every row. -/
def padMatrix (x : α) (t b l rr m : Nat) (M : List (List α)) : List (List α) :=
  ((List.replicate t (List.replicate m x) ++ M) ++ List.replicate b (List.replicate m x)).map
    fun row => (List.replicate l x ++ row) ++ List.replicate rr x

/-- Growth amount of one flagged edge. -/
def amt (b : Bool) : Nat := if b then 10 else 0

/-! ### Generic lemmas about the list combinators used by the embedding -/

theorem mapM_eq_some_map {α β : Type} {f : α → Option β} {g : α → β} :
    ∀ {l : List α}, (∀ a ∈ l, f a = some (g a)) → l.mapM f = some (l.map g)
  | [], _ => rfl
  | a :: l, h => by
    have ha := h a (List.mem_cons_self a l)
    have hl := mapM_eq_some_map (l := l) fun x hx => h x (List.mem_cons_of_mem _ hx)
    rw [List.mapM_cons, ha, hl]
    rfl

theorem foldlM_eq_some_foldl {α β : Type} {f : β → α → Option β} {p : β → α → β} :
    ∀ {l : List α} {b : β}, (∀ b2, ∀ a ∈ l, f b2 a = some (p b2 a)) →
      l.foldlM f b = some (l.foldl p b)
  | [], _, _ => rfl
  | a :: l, b, h => by
    have ha := h b a (List.mem_cons_self a l)
    have hl := foldlM_eq_some_foldl (l := l) (b := p b a)
      fun b2 x hx => h b2 x (List.mem_cons_of_mem _ hx)
    simp [List.foldlM_cons, ha, hl]

theorem foldlM_congr_mem {α β : Type} {f g : β → α → Option β} :
    ∀ {l : List α} {b : β}, (∀ b2, ∀ a ∈ l, f b2 a = g b2 a) →
      l.foldlM f b = l.foldlM g b
  | [], _, _ => rfl
  | a :: l, b, h => by
    have ha := h b a (List.mem_cons_self a l)
    simp only [List.foldlM_cons, ha]
    cases hga : g b a with
    | none => rfl
    | some b2 =>
      simp only [Option.bind_eq_bind, Option.some_bind]
      exact foldlM_congr_mem (l := l) (b := b2)
        fun b3 x hx => h b3 x (List.mem_cons_of_mem _ hx)

theorem foldlM_filter_pure {α β : Type} (p : α → Bool) (f : β → α → Option β) :
    ∀ (l : List α) (b : β),
      l.foldlM (fun b2 a => if p a then f b2 a else pure b2) b = (l.filter p).foldlM f b
  | [], _ => rfl
  | a :: l, b => by
    by_cases hp : p a
    · simp only [List.foldlM_cons, hp, if_true, List.filter_cons_of_pos hp]
      cases f b a with
      | none => rfl
      | some b2 =>
        simp only [Option.bind_eq_bind, Option.some_bind, List.foldlM_cons]
        exact foldlM_filter_pure p f l b2
    · simp only [List.foldlM_cons, hp, if_false, List.filter_cons_of_neg hp,
        Bool.false_eq_true]
      simpa using foldlM_filter_pure p f l b

theorem foldl_add_sum {α : Type} (f : α → Nat) :
    ∀ (l : List α) (a0 : Nat), l.foldl (fun acc x => acc + f x) a0 = a0 + (l.map f).sum
  | [], a0 => by simp
  | x :: l, a0 => by
    simp only [List.foldl_cons, List.map_cons, List.sum_cons, foldl_add_sum f l]
    omega

theorem map_sum_le_length {α : Type} (f : α → Nat) :
    ∀ (l : List α), (∀ a ∈ l, f a ≤ 1) → (l.map f).sum ≤ l.length
  | [], _ => by simp
  | a :: l, h => by
    simp only [List.map_cons, List.sum_cons, List.length_cons]
    have h1 := map_sum_le_length f l fun x hx => h x (List.mem_cons_of_mem _ hx)
    have h2 := h a (List.mem_cons_self a l)
    omega

theorem foldl_append_eq_filterMap {α β : Type} (p : α → Bool) (h : α → β) :
    ∀ (l : List α) (init : List β),
      l.foldl (fun acc x => if p x then acc ++ [h x] else acc) init =
        init ++ l.filterMap (fun x => if p x then some (h x) else none)
  | [], init => by simp
  | a :: l, init => by
    by_cases hp : p a <;>
      simp [List.filterMap_cons, hp, foldl_append_eq_filterMap p h l]

theorem foldl_or_eq_any {α : Type} (p : α → Bool) :
    ∀ (l : List α) (b : Bool), l.foldl (fun acc x => acc || p x) b = (b || l.any p)
  | [], b => by simp
  | a :: l, b => by simp [List.foldl_cons, foldl_or_eq_any p l, Bool.or_assoc]

theorem getD_eq_getElem {α} {l : List α} {i : Nat} (h : i < l.length) (d : α) :
    l.getD i d = l[i] := by
  rw [List.getD_eq_getElem?_getD, List.getElem?_eq_getElem h, Option.getD_some]

/-! ### Access lemmas -/

theorem row_length_of_lt {g : Grid} (hw : rectangular g) {i : Nat} (hi : i < g.length) :
    (g.getD i []).length = cols g := by
  rw [getD_eq_getElem hi]
  exact hw _ (List.getElem_mem hi)

theorem getCell_eq_some {g : Grid} (hw : rectangular g) {r c : Int}
    (hr0 : 0 ≤ r) (hr : r < (g.length : Int)) (hc0 : 0 ≤ c) (hc : c < (cols g : Int)) :
    getCell g r c = some (cellCurr g r.toNat c.toNat) := by
  have hrn : r.toNat < g.length := (Int.toNat_lt hr0).mpr hr
  have hcn : c.toNat < cols g := (Int.toNat_lt hc0).mpr hc
  have hrow : (g.getD r.toNat []).length = cols g := row_length_of_lt hw hrn
  have hcn2 : c.toNat < (g.getD r.toNat []).length := by rw [hrow]; exact hcn
  unfold getCell cellCurr entry
  rw [if_pos ⟨hr0, hc0⟩, List.get?_eq_getElem?, List.getElem?_eq_getElem hrn]
  rw [Option.some_bind, List.get?_eq_getElem?]
  rw [getD_eq_getElem hrn] at hcn2 ⊢
  rw [List.getElem?_eq_getElem hcn2, getD_eq_getElem hcn2]

theorem mem_cellsList {rows ncols r c : Nat} :
    ((r, c) ∈ cellsList rows ncols) ↔ (r < rows ∧ c < ncols) := by
  unfold cellsList
  simp only [List.mem_flatMap, List.mem_map, List.mem_range, Prod.mk.injEq]
  constructor
  · rintro ⟨a, ha, b, hb, hba, hbc⟩
    exact ⟨hba ▸ ha, hbc ▸ hb⟩
  · rintro ⟨hr, hc⟩
    exact ⟨r, hr, c, hc, rfl, rfl⟩

theorem nodup_cellsList {rows ncols : Nat} : (cellsList rows ncols).Nodup := by
  unfold cellsList
  rw [List.nodup_flatMap]
  refine ⟨fun r _ => ?_, ?_⟩
  · exact (List.nodup_range ncols).map fun a b h => by
      simpa using congrArg Prod.snd h
  · have hnd := List.nodup_range rows
    refine List.Pairwise.imp ?_ hnd
    intro a b hab x hxa hxb
    obtain ⟨ca, _, hca⟩ := List.mem_map.mp hxa
    obtain ⟨cb, _, hcb⟩ := List.mem_map.mp hxb
    exact hab (by rw [← hca] at hcb; simpa using (congrArg Prod.fst hcb).symm)

/-! ### What `countAliveNeighbors` returns -/

theorem neighbor_body_eq {g : Grid} {r0 : List Bool} {grest : List (List Bool)}
    (hg : g = r0 :: grest) (hw : rectangular g) (hc1 : 1 ≤ cols g) (tor : Bool)
    (row col : Int) (d : Int × Int) (count : Nat) :
    neighborStep g (g.length : Int) (r0.length : Int) tor row col count d =
      some (count + mooreContribution g tor row col d) := by
  have hcols : (cols g : Int) = (r0.length : Int) := by rw [hg]; rfl
  have hrpos : (0 : Int) < (g.length : Int) := by
    rw [hg]; exact_mod_cast Nat.succ_pos grest.length
  have hcpos : (0 : Int) < (r0.length : Int) := by
    rw [← hcols]; exact_mod_cast hc1
  unfold neighborStep
  cases tor with
  | true =>
    rw [if_pos rfl]
    have h1 : 0 ≤ (row + d.1 + (g.length : Int)) % (g.length : Int) :=
      Int.emod_nonneg _ (by omega)
    have h2 : (row + d.1 + (g.length : Int)) % (g.length : Int) < (g.length : Int) :=
      Int.emod_lt_of_pos _ hrpos
    have h3 : 0 ≤ (col + d.2 + (r0.length : Int)) % (r0.length : Int) :=
      Int.emod_nonneg _ (by omega)
    have h4 : (col + d.2 + (r0.length : Int)) % (r0.length : Int) < (r0.length : Int) :=
      Int.emod_lt_of_pos _ hcpos
    rw [getCell_eq_some hw h1 h2 h3 (by rw [hcols]; exact h4)]
    unfold mooreContribution
    rw [if_pos rfl, hcols]
    rfl
  | false =>
    rw [if_neg (by simp)]
    by_cases hb : 0 ≤ row + d.1 ∧ row + d.1 < (g.length : Int) ∧
        0 ≤ col + d.2 ∧ col + d.2 < (r0.length : Int)
    · obtain ⟨hb1, hb2, hb3, hb4⟩ := hb
      rw [if_pos ⟨hb1, hb2, hb3, hb4⟩,
        getCell_eq_some hw hb1 hb2 hb3 (by rw [hcols]; exact hb4)]
      unfold mooreContribution
      rw [if_neg (by simp), if_pos ⟨hb1, hb2, hb3, by rw [hcols]; exact hb4⟩]
      rfl
    · rw [if_neg hb]
      unfold mooreContribution
      rw [if_neg (by simp), if_neg
        (fun hcon => hb ⟨hcon.1, hcon.2.1, hcon.2.2.1, by rw [← hcols]; exact hcon.2.2.2⟩)]
      simp

theorem countAliveNeighbors_eq_spec {g : Grid} (hw : rectangular g) (hg : g ≠ [])
    (hc1 : 1 ≤ cols g) (tor : Bool) (row col : Int) :
    countAliveNeighbors g tor row col = some (neighborSpec g tor row col) := by
  cases hgc : g with
  | nil => exact absurd hgc hg
  | cons r0 grest =>
    have hr : countAliveNeighbors (r0 :: grest) tor row col =
        directions.foldlM
          (neighborStep (r0 :: grest) ((r0 :: grest).length : Int) (r0.length : Int)
            tor row col) 0 := rfl
    subst hgc
    rw [hr]
    rw [foldlM_eq_some_foldl
      (p := fun count d => count + mooreContribution (r0 :: grest) tor row col d)
      (fun count d _ => neighbor_body_eq rfl hw hc1 tor row col d count)]
    rw [foldl_add_sum]
    simp [neighborSpec]

theorem mooreContribution_le_one (g : Grid) (tor : Bool) (row col : Int) (d : Int × Int) :
    mooreContribution g tor row col d ≤ 1 := by
  unfold mooreContribution
  dsimp only
  split
  · split <;> omega
  · split
    · split <;> omega
    · omega

theorem neighborSpec_le_eight (g : Grid) (tor : Bool) (row col : Int) :
    neighborSpec g tor row col ≤ 8 := by
  unfold neighborSpec
  have h := map_sum_le_length (mooreContribution g tor row col) directions
    (fun d _ => mooreContribution_le_one g tor row col d)
  have hlen : directions.length = 8 := rfl
  omega

/-! ### The four passes of the update loop compute their total forms -/

theorem nextValsOpt_eq {g : Grid} (hw : rectangular g) (hg : g ≠ []) (tor : Bool) :
    nextValsOpt g tor = some (nextGridSpec g tor) := by
  unfold nextValsOpt nextGridSpec
  refine mapM_eq_some_map fun r _ => ?_
  refine mapM_eq_some_map fun c hc => ?_
  rw [countAliveNeighbors_eq_spec hw hg
    (by rw [List.mem_range] at hc; omega) tor (r : Int) (c : Int)]
  rfl

theorem bumpCounts_eq_some {cts : Counts} (r c : Nat) (h : r < cts.length) :
    bumpCounts cts r c = some (bumpTotal cts r c) := by
  unfold bumpCounts bumpTotal
  rw [List.get?_eq_getElem?, List.getElem?_eq_getElem h, getD_eq_getElem h]

theorem bumpTotal_length (cts : Counts) (r c : Nat) :
    (bumpTotal cts r c).length = cts.length := List.length_set cts r _

theorem foldlM_bump_eq :
    ∀ {l : List (Nat × Nat)} {cts : Counts}, (∀ rc ∈ l, rc.1 < cts.length) →
      l.foldlM (fun acc rc => bumpCounts acc rc.1 rc.2) cts =
        some (l.foldl (fun acc rc => bumpTotal acc rc.1 rc.2) cts)
  | [], _, _ => rfl
  | a :: l, cts, h => by
    rw [List.foldlM_cons, bumpCounts_eq_some a.1 a.2 (h a (List.mem_cons_self a l))]
    simp only [Option.bind_eq_bind, Option.some_bind]
    exact foldlM_bump_eq fun rc hrc => by
      rw [bumpTotal_length]; exact h rc (List.mem_cons_of_mem _ hrc)

theorem countsOpt_eq {g : Grid} {cts : Counts} (hw : rectangular g) (hg : g ≠ [])
    (tor : Bool) (hlen : g.length ≤ cts.length) :
    countsOpt g tor cts = some (countsSpec g tor cts) := by
  unfold countsOpt countsSpec
  rw [foldlM_congr_mem
    (g := fun acc rc => if diedAt g tor rc then bumpCounts acc rc.1 rc.2 else pure acc)
    (fun acc rc hrc => by
      have hc := (mem_cellsList.mp hrc).2
      rw [countAliveNeighbors_eq_spec hw hg (by omega) tor (rc.1 : Int) (rc.2 : Int)]
      rw [Option.some_bind]
      rfl)]
  rw [foldlM_filter_pure (diedAt g tor) (fun acc rc => bumpCounts acc rc.1 rc.2)]
  refine foldlM_bump_eq fun rc hrc => ?_
  have hr := (mem_cellsList.mp (List.mem_of_mem_filter hrc)).1
  omega

theorem transitionsOpt_eq {g : Grid} (hw : rectangular g) (hg : g ≠ []) (tor : Bool) :
    transitionsOpt g tor = some (transitionsSpec g tor) := by
  unfold transitionsOpt transitionsSpec
  rw [foldlM_eq_some_foldl
    (p := fun acc rc =>
      if (ruleNext (cellCurr g rc.1 rc.2) (neighborSpec g tor rc.1 rc.2)
            != cellCurr g rc.1 rc.2) then
        acc ++ [(rc.1, rc.2,
          if ruleNext (cellCurr g rc.1 rc.2) (neighborSpec g tor rc.1 rc.2)
          then TransKind.birth else TransKind.death)]
      else acc)
    (fun acc rc hrc => by
      have hc := (mem_cellsList.mp hrc).2
      rw [countAliveNeighbors_eq_spec hw hg (by omega) tor (rc.1 : Int) (rc.2 : Int)]
      rfl)]
  rw [foldl_append_eq_filterMap]
  rw [List.nil_append]

theorem changedOpt_eq {g : Grid} (hw : rectangular g) (hg : g ≠ []) (tor : Bool) :
    changedOpt g tor = some (changedSpecF g tor) := by
  unfold changedOpt changedSpecF
  rw [foldlM_eq_some_foldl
    (p := fun acc rc =>
      acc || (ruleNext (cellCurr g rc.1 rc.2) (neighborSpec g tor rc.1 rc.2)
              != cellCurr g rc.1 rc.2))
    (fun acc rc hrc => by
      have hc := (mem_cellsList.mp hrc).2
      rw [countAliveNeighbors_eq_spec hw hg (by omega) tor (rc.1 : Int) (rc.2 : Int)]
      rfl)]
  rw [foldl_or_eq_any, Bool.false_or]

/-! ### Writing the computed values into the buffer -/

theorem mergeRow_eq_of_length : ∀ {old vals : List Bool}, old.length = vals.length →
    mergeRow old vals = vals
  | [], [], _ => rfl
  | [], _ :: _, h => by simp at h
  | _ :: _, [], h => by simp at h
  | a :: old, v :: vals, h => by
    have hstep : mergeRow (a :: old) (v :: vals) = v :: mergeRow old vals := rfl
    rw [hstep, mergeRow_eq_of_length (by simpa using h)]

theorem zipWith_mergeRow_dead : ∀ {v : Grid} {m : Nat},
    (∀ row ∈ v, row.length = m) →
    List.zipWith mergeRow (mkDeadGrid v.length m) v = v
  | [], _, _ => rfl
  | row :: vals, m, hrow => by
    have h1 : mkDeadGrid (row :: vals).length m =
        List.replicate m false :: mkDeadGrid vals.length m := by
      unfold mkDeadGrid
      rw [List.length_cons, List.replicate_succ]
    rw [h1, List.zipWith_cons_cons]
    rw [mergeRow_eq_of_length
      (by rw [List.length_replicate, hrow row (List.mem_cons_self row vals)])]
    rw [zipWith_mergeRow_dead fun r hr => hrow r (List.mem_cons_of_mem _ hr)]

theorem nextGridSpec_length (g : Grid) (tor : Bool) :
    (nextGridSpec g tor).length = g.length := by
  unfold nextGridSpec
  rw [List.length_map, List.length_range]

theorem nextGridSpec_row_length {g : Grid} {tor : Bool} {row : List Bool}
    (h : row ∈ nextGridSpec g tor) : row.length = cols g := by
  unfold nextGridSpec at h
  obtain ⟨r, _, hr⟩ := List.mem_map.mp h
  rw [← hr, List.length_map, List.length_range]

/-! ### The step function in terms of the total pass descriptions -/

theorem stepWithBuffer_eq_spec {s : GridState} {pol : Policy} {buf : Grid} {g : Grid}
    {cts : Counts} (hgrow : growPhase s pol = some (g, cts)) (hw : rectangular g)
    (hg : g ≠ []) (hlen : g.length ≤ cts.length) :
    stepWithBuffer s buf pol =
      some ⟨⟨List.zipWith mergeRow
               (if nextBufferOk buf g.length (cols g) then buf
                else mkDeadGrid g.length (cols g))
               (nextGridSpec g (pol == Policy.toroidal)),
             countsSpec g (pol == Policy.toroidal) cts⟩,
            transitionsSpec g (pol == Policy.toroidal),
            changedSpecF g (pol == Policy.toroidal)⟩ := by
  unfold stepWithBuffer
  rw [hgrow]
  cases g with
  | nil => exact absurd rfl hg
  | cons r0 grest =>
    simp only [nextValsOpt_eq hw hg (pol == Policy.toroidal),
      countsOpt_eq hw hg (pol == Policy.toroidal) hlen,
      transitionsOpt_eq hw hg (pol == Policy.toroidal),
      changedOpt_eq hw hg (pol == Policy.toroidal)]

theorem stepFn_eq_spec {s : GridState} {pol : Policy} {g : Grid} {cts : Counts}
    (hgrow : growPhase s pol = some (g, cts)) (hw : rectangular g) (hg : g ≠ [])
    (hlen : g.length ≤ cts.length) :
    stepFn s pol =
      some ⟨⟨nextGridSpec g (pol == Policy.toroidal),
             countsSpec g (pol == Policy.toroidal) cts⟩,
            transitionsSpec g (pol == Policy.toroidal),
            changedSpecF g (pol == Policy.toroidal)⟩ := by
  unfold stepFn
  rw [stepWithBuffer_eq_spec hgrow hw hg hlen]
  have hbuf : nextBufferOk [] g.length (cols g) = false := by
    unfold nextBufferOk
    cases g with
    | nil => exact absurd rfl hg
    | cons r0 grest => simp
  rw [hbuf]
  have hmerge := zipWith_mergeRow_dead
    (v := nextGridSpec g (pol == Policy.toroidal)) (m := cols g)
    (fun row hr => nextGridSpec_row_length hr)
  rw [nextGridSpec_length] at hmerge
  simp only [Bool.false_eq_true, if_false, hmerge]

/-! ### Reading single cells of the computed outputs -/

theorem getD_map_range {α : Type} (f : Nat → α) {n i : Nat} (h : i < n) (d : α) :
    ((List.range n).map f).getD i d = f i := by
  rw [List.getD_eq_getElem?_getD, List.getElem?_map, List.getElem?_range h,
    Option.map_some', Option.getD_some]

theorem cellCurr_nextGridSpec {g : Grid} (tor : Bool) {r c : Nat}
    (hr : r < g.length) (hc : c < cols g) :
    cellCurr (nextGridSpec g tor) r c =
      ruleNext (cellCurr g r c) (neighborSpec g tor (r : Int) (c : Int)) := by
  unfold nextGridSpec cellCurr entry
  rw [getD_map_range _ hr, getD_map_range _ hc]

theorem countAt_bumpTotal_same {cts : Counts} {r c : Nat} (hr : r < cts.length)
    (hc : c < (cts.getD r []).length) :
    countAt (bumpTotal cts r c) r c = (countAt cts r c + 1) % 65536 := by
  unfold bumpTotal countAt entry
  rw [List.getD_eq_getElem?_getD (cts.set r _), List.getElem?_set_self hr, Option.getD_some,
    List.getD_eq_getElem?_getD ((cts.getD r []).set c _),
    List.getElem?_set_self hc, Option.getD_some]

theorem countAt_bumpTotal_ne {cts : Counts} {r c r2 c2 : Nat} (h : (r2, c2) ≠ (r, c)) :
    countAt (bumpTotal cts r c) r2 c2 = countAt cts r2 c2 := by
  unfold bumpTotal countAt entry
  by_cases hr : r = r2
  · subst hr
    have hc : c ≠ c2 := fun hcc => h (by rw [hcc])
    by_cases hlt : r < cts.length
    · rw [List.getD_eq_getElem?_getD (cts.set r _), List.getElem?_set, if_pos rfl,
        if_pos hlt, Option.getD_some,
        List.getD_eq_getElem?_getD ((cts.getD r []).set c _), List.getElem?_set,
        if_neg hc, ← List.getD_eq_getElem?_getD]
    · rw [List.set_eq_of_length_le (Nat.le_of_not_lt hlt)]
  · rw [List.getD_eq_getElem?_getD (cts.set r _), List.getElem?_set, if_neg hr,
      ← List.getD_eq_getElem?_getD]

theorem bumpTotal_row_length (cts : Counts) (r c i : Nat) :
    ((bumpTotal cts r c).getD i []).length = (cts.getD i []).length := by
  unfold bumpTotal
  by_cases hr : r = i
  · subst hr
    by_cases hlt : r < cts.length
    · rw [List.getD_eq_getElem?_getD (cts.set r _), List.getElem?_set, if_pos rfl,
        if_pos hlt, Option.getD_some, List.length_set]
    · rw [List.set_eq_of_length_le (Nat.le_of_not_lt hlt)]
  · rw [List.getD_eq_getElem?_getD (cts.set r _), List.getElem?_set, if_neg hr,
      ← List.getD_eq_getElem?_getD]

theorem countAt_foldl_bump :
    ∀ {L : List (Nat × Nat)} {cts : Counts}, L.Nodup →
      (∀ rc ∈ L, rc.1 < cts.length ∧ rc.2 < (cts.getD rc.1 []).length) →
      ∀ r c, countAt (L.foldl (fun acc rc => bumpTotal acc rc.1 rc.2) cts) r c =
        if (r, c) ∈ L then (countAt cts r c + 1) % 65536 else countAt cts r c
  | [], cts, _, _, r, c => by simp
  | a :: L, cts, hnd, hb, r, c => by
    rw [List.foldl_cons]
    have hnotmem := (List.nodup_cons.mp hnd).1
    have hb2 : ∀ rc ∈ L, rc.1 < (bumpTotal cts a.1 a.2).length ∧
        rc.2 < ((bumpTotal cts a.1 a.2).getD rc.1 []).length := by
      intro rc hrc
      have hh := hb rc (List.mem_cons_of_mem _ hrc)
      rw [bumpTotal_length, bumpTotal_row_length]
      exact hh
    rw [countAt_foldl_bump (List.Nodup.of_cons hnd) hb2 r c]
    by_cases hrc : (r, c) = a
    · rw [if_neg (fun hmem2 => hnotmem (hrc ▸ hmem2)),
        if_pos (hrc ▸ List.mem_cons_self a L)]
      have hba := hb a (List.mem_cons_self a L)
      rw [← hrc] at hba
      rw [← hrc]
      exact countAt_bumpTotal_same hba.1 hba.2
    · rw [countAt_bumpTotal_ne hrc]
      by_cases hmem2 : (r, c) ∈ L
      · rw [if_pos hmem2, if_pos (List.mem_cons_of_mem _ hmem2)]
      · rw [if_neg hmem2, if_neg (fun hcon => by
          rcases List.mem_cons.mp hcon with hx | hx
          · exact hrc hx
          · exact hmem2 hx)]

theorem sameShape_length {cts : Counts} {g : Grid} (h : sameShape cts g) :
    cts.length = g.length := by
  have h2 := congrArg List.length h
  simpa using h2

theorem sameShape_row_length {cts : Counts} {g : Grid} (h : sameShape cts g) (i : Nat) :
    (cts.getD i []).length = (g.getD i []).length := by
  have h2 : (cts.map List.length)[i]? = (g.map List.length)[i]? := by rw [h]
  rw [List.getElem?_map, List.getElem?_map] at h2
  rw [List.getD_eq_getElem?_getD, List.getD_eq_getElem?_getD]
  cases hc : cts[i]? with
  | none =>
    cases hgel : g[i]? with
    | none => rfl
    | some row => rw [hc, hgel] at h2; simp at h2
  | some rowc =>
    cases hgel : g[i]? with
    | none => rw [hc, hgel] at h2; simp at h2
    | some rowg =>
      rw [hc, hgel] at h2
      simp only [Option.map_some'] at h2
      simpa using h2

theorem counts_row_length {cts : Counts} {g : Grid} (hs : sameShape cts g)
    (hw : rectangular g) : ∀ row ∈ cts, row.length = cols g := by
  intro row hrow
  have h1 : row.length ∈ cts.map List.length := List.mem_map_of_mem _ hrow
  rw [hs] at h1
  obtain ⟨grow, hg2, hl⟩ := List.mem_map.mp h1
  rw [← hl, hw grow hg2]

theorem countAt_countsSpec {g : Grid} (tor : Bool) {cts : Counts}
    (hw : rectangular g) (hs : sameShape cts g) (r c : Nat) :
    countAt (countsSpec g tor cts) r c =
      if r < g.length ∧ c < cols g ∧ diedAt g tor (r, c) = true then
        (countAt cts r c + 1) % 65536
      else countAt cts r c := by
  unfold countsSpec
  rw [countAt_foldl_bump (List.Nodup.filter _ nodup_cellsList)
    (fun rc hrc => by
      have hmem := mem_cellsList.mp (List.mem_of_mem_filter hrc)
      refine ⟨by rw [sameShape_length hs]; exact hmem.1, ?_⟩
      rw [sameShape_row_length hs, row_length_of_lt hw hmem.1]
      exact hmem.2) r c]
  by_cases hin : (r, c) ∈ (cellsList g.length (cols g)).filter (diedAt g tor)
  · rw [if_pos hin]
    have hmem := List.mem_filter.mp hin
    rw [if_pos ⟨(mem_cellsList.mp hmem.1).1, (mem_cellsList.mp hmem.1).2, hmem.2⟩]
  · rw [if_neg hin]
    rw [if_neg (fun hcon => hin (List.mem_filter.mpr
      ⟨mem_cellsList.mpr ⟨hcon.1, hcon.2.1⟩, hcon.2.2⟩))]

theorem mem_transitionsSpec {g : Grid} {tor : Bool} {r c : Nat} {k : TransKind}
    (hr : r < g.length) (hc : c < cols g) :
    ((r, c, k) ∈ transitionsSpec g tor) ↔
      (ruleNext (cellCurr g r c) (neighborSpec g tor (r : Int) (c : Int)) ≠ cellCurr g r c ∧
       k = (if ruleNext (cellCurr g r c) (neighborSpec g tor (r : Int) (c : Int))
            then TransKind.birth else TransKind.death)) := by
  unfold transitionsSpec
  rw [List.mem_filterMap]
  constructor
  · rintro ⟨⟨a, b⟩, hmem, heq⟩
    dsimp only at heq
    by_cases hne : ruleNext (cellCurr g a b) (neighborSpec g tor (a : Int) (b : Int))
        != cellCurr g a b
    · rw [if_pos hne] at heq
      have h3 := Option.some.inj heq
      rw [Prod.ext_iff] at h3
      obtain ⟨ha, h4⟩ := h3
      rw [Prod.ext_iff] at h4
      obtain ⟨hb, hk⟩ := h4
      dsimp only at ha hb hk
      subst ha; subst hb
      exact ⟨bne_iff_ne.mp hne, hk.symm⟩
    · rw [if_neg hne] at heq
      exact absurd heq (by simp)
  · rintro ⟨hne, hk⟩
    refine ⟨(r, c), mem_cellsList.mpr ⟨hr, hc⟩, ?_⟩
    dsimp only
    rw [if_pos (bne_iff_ne.mpr hne), hk]

/-! ### The growth phase: closed form and its properties -/

theorem expandTopIf (bt : Bool) (g : Grid) (cts : Counts) :
    (if bt then expandTop g cts 10 else (g, cts)) =
      (List.replicate (amt bt) (List.replicate (cols g) false) ++ g,
       List.replicate (amt bt) (List.replicate (cols g) 0) ++ cts) := by
  cases bt <;> simp [expandTop, amt]

theorem expandBottomIf (bb : Bool) (g : Grid) (cts : Counts) :
    (if bb then expandBottom g cts 10 else (g, cts)) =
      (g ++ List.replicate (amt bb) (List.replicate (cols g) false),
       cts ++ List.replicate (amt bb) (List.replicate (cols g) 0)) := by
  cases bb <;> simp [expandBottom, amt]

theorem expandLeftIf (bl : Bool) (g : Grid) (cts : Counts) :
    (if bl then expandLeft g cts 10 else (g, cts)) =
      (g.map fun row => List.replicate (amt bl) false ++ row,
       cts.map fun row => List.replicate (amt bl) 0 ++ row) := by
  cases bl <;> simp [expandLeft, amt]

theorem expandRightIf (br : Bool) (g : Grid) (cts : Counts) :
    (if br then expandRight g cts 10 else (g, cts)) =
      (g.map fun row => row ++ List.replicate (amt br) false,
       cts.map fun row => row ++ List.replicate (amt br) 0) := by
  cases br <;> simp [expandRight, amt]

theorem cols_pad_top (x : Bool) (t : Nat) (g : Grid) :
    cols (List.replicate t (List.replicate (cols g) x) ++ g) = cols g := by
  cases t with
  | zero => rfl
  | succ t2 =>
    unfold cols
    rw [List.replicate_succ, List.cons_append]
    simp

theorem growPhase_infinite_closed {g : Grid} {cts : Counts} {f : EdgeFlags}
    (hef : edgeFlags g = some f) :
    growPhase ⟨g, cts⟩ Policy.infinite =
      some (padMatrix false (amt f.top) (amt f.bottom) (amt f.left) (amt f.right) (cols g) g,
            padMatrix 0 (amt f.top) (amt f.bottom) (amt f.left) (amt f.right) (cols g) cts) := by
  unfold growPhase
  rw [hef]
  dsimp only
  rw [expandTopIf f.top g cts]
  dsimp only
  rw [expandBottomIf f.bottom _ _, cols_pad_top]
  dsimp only
  rw [expandLeftIf f.left _ _]
  dsimp only
  rw [expandRightIf f.right _ _]
  unfold padMatrix
  rw [List.map_map, List.map_map]
  simp only [Function.comp_def]

theorem edgeFlags_isSome {g : Grid} (hg : g ≠ []) : ∃ f, edgeFlags g = some f := by
  cases g with
  | nil => exact absurd rfl hg
  | cons r0 grest => exact ⟨_, rfl⟩

theorem length_padMatrix (x : α) (t b l rr m : Nat) (M : List (List α)) :
    (padMatrix x t b l rr m M).length = t + M.length + b := by
  unfold padMatrix
  rw [List.length_map, List.length_append, List.length_append, List.length_replicate,
    List.length_replicate]

theorem map_length_padMatrix (x : α) (t b l rr m : Nat) {M : List (List α)}
    (hw : ∀ row ∈ M, row.length = m) :
    (padMatrix x t b l rr m M).map List.length =
      List.replicate (t + M.length + b) (l + m + rr) := by
  rw [List.eq_replicate_iff]
  refine ⟨by rw [List.length_map, length_padMatrix], ?_⟩
  intro k hk
  obtain ⟨row, hrow, hlen⟩ := List.mem_map.mp hk
  unfold padMatrix at hrow
  obtain ⟨row0, hrow0, hfr⟩ := List.mem_map.mp hrow
  have hr0len : row0.length = m := by
    rcases List.mem_append.mp hrow0 with h1 | h1
    · rcases List.mem_append.mp h1 with h2 | h2
      · rw [List.eq_of_mem_replicate h2, List.length_replicate]
      · exact hw row0 h2
    · rw [List.eq_of_mem_replicate h1, List.length_replicate]
  rw [← hlen, ← hfr, List.length_append, List.length_append, List.length_replicate,
    List.length_replicate, hr0len]

theorem cols_eq_of_map_length {G : List (List Bool)} {n k : Nat}
    (h : G.map List.length = List.replicate n k) (hn : 0 < n) : cols G = k := by
  cases G with
  | nil =>
    have h2 := congrArg List.length h
    simp at h2
    omega
  | cons r0 rest =>
    cases n with
    | zero => omega
    | succ n2 =>
      rw [List.replicate_succ, List.map_cons] at h
      have := List.head_eq_of_cons_eq h
      unfold cols
      simpa using this

theorem rectangular_of_map_length {G : Grid} {n k : Nat}
    (h : G.map List.length = List.replicate n k) (hn : 0 < n) : rectangular G := by
  intro row hrow
  have h1 : row.length ∈ G.map List.length := List.mem_map_of_mem _ hrow
  rw [h] at h1
  rw [List.eq_of_mem_replicate h1, cols_eq_of_map_length h hn]

theorem getD_pad_row (d x : α) (l rr : Nat) (row : List α) (c : Nat) :
    ((List.replicate l x ++ row) ++ List.replicate rr x).getD c d =
      if l ≤ c ∧ c < l + row.length then row.getD (c - l) d
      else if c < l + row.length + rr then x else d := by
  rw [List.getD_eq_getElem?_getD, List.getElem?_append, List.getElem?_append]
  rw [List.length_append, List.length_replicate]
  by_cases h1 : c < l
  · rw [if_pos (by omega), if_pos h1, List.getElem?_replicate, if_pos h1]
    rw [if_neg (by omega), if_pos (by omega)]
    rfl
  · by_cases h2 : c < l + row.length
    · rw [if_pos h2, if_neg h1, if_pos ⟨by omega, h2⟩]
      have hcl : c - l < row.length := by omega
      rw [List.getElem?_eq_getElem hcl, Option.getD_some]
      exact (getD_eq_getElem hcl d).symm
    · rw [if_neg (by omega), if_neg (by omega), List.getElem?_replicate]
      by_cases h3 : c < l + row.length + rr
      · rw [if_pos (by omega), if_pos h3]
        rfl
      · rw [if_neg (by omega), if_neg h3]
        rfl

theorem entry_padMatrix (d x : α) (t b l rr m : Nat) {M : List (List α)}
    (hw : ∀ row ∈ M, row.length = m) (r c : Nat) :
    entry d (padMatrix x t b l rr m M) r c =
      if t ≤ r ∧ r < t + M.length ∧ l ≤ c ∧ c < l + m then entry d M (r - t) (c - l)
      else if r < t + M.length + b ∧ c < l + m + rr then x
      else d := by
  unfold padMatrix entry
  rw [List.getD_eq_getElem?_getD (List.map _ _), List.getElem?_map, List.getElem?_append,
    List.getElem?_append]
  rw [List.length_append, List.length_replicate]
  by_cases h1 : r < t
  · rw [if_pos (show r < t + M.length by omega), if_pos h1, List.getElem?_replicate,
      if_pos h1, Option.map_some', Option.getD_some, getD_pad_row, List.length_replicate]
    rw [if_neg (show ¬(t ≤ r ∧ r < t + M.length ∧ l ≤ c ∧ c < l + m) by omega)]
    by_cases h2 : l ≤ c ∧ c < l + m
    · rw [if_pos h2, if_pos (show r < t + M.length + b ∧ c < l + m + rr by omega)]
      rw [List.getD_eq_getElem?_getD, List.getElem?_replicate,
        if_pos (show c - l < m by omega), Option.getD_some]
    · rw [if_neg h2]
      by_cases h3 : c < l + m + rr
      · rw [if_pos h3, if_pos (show r < t + M.length + b ∧ c < l + m + rr by omega)]
      · rw [if_neg h3, if_neg (show ¬(r < t + M.length + b ∧ c < l + m + rr) by omega)]
  · by_cases h2 : r < t + M.length
    · have hr2 : r - t < M.length := by omega
      rw [if_pos (show r < t + M.length from h2), if_neg h1,
        List.getElem?_eq_getElem hr2, Option.map_some', Option.getD_some, getD_pad_row]
      have hrow : M[r - t].length = m := hw _ (List.getElem_mem hr2)
      rw [hrow]
      by_cases h3 : l ≤ c ∧ c < l + m
      · rw [if_pos h3,
          if_pos (show t ≤ r ∧ r < t + M.length ∧ l ≤ c ∧ c < l + m by omega)]
        rw [getD_eq_getElem hr2 ([] : List α)]
      · rw [if_neg h3,
          if_neg (show ¬(t ≤ r ∧ r < t + M.length ∧ l ≤ c ∧ c < l + m) by omega)]
        by_cases h4 : c < l + m + rr
        · rw [if_pos h4, if_pos (show r < t + M.length + b ∧ c < l + m + rr by omega)]
        · rw [if_neg h4,
            if_neg (show ¬(r < t + M.length + b ∧ c < l + m + rr) by omega)]
    · rw [if_neg (show ¬ r < t + M.length by omega), List.getElem?_replicate]
      rw [if_neg (show ¬(t ≤ r ∧ r < t + M.length ∧ l ≤ c ∧ c < l + m) by omega)]
      by_cases h3 : r < t + M.length + b
      · rw [if_pos (show r - (t + M.length) < b by omega), Option.map_some',
          Option.getD_some, getD_pad_row, List.length_replicate]
        by_cases hc2 : l ≤ c ∧ c < l + m
        · rw [if_pos hc2, if_pos (show r < t + M.length + b ∧ c < l + m + rr by omega)]
          rw [List.getD_eq_getElem?_getD, List.getElem?_replicate,
            if_pos (show c - l < m by omega), Option.getD_some]
        · rw [if_neg hc2]
          by_cases h4 : c < l + m + rr
          · rw [if_pos h4, if_pos (show r < t + M.length + b ∧ c < l + m + rr by omega)]
          · rw [if_neg h4,
              if_neg (show ¬(r < t + M.length + b ∧ c < l + m + rr) by omega)]
      · rw [if_neg (show ¬ r - (t + M.length) < b by omega)]
        rw [if_neg (show ¬(r < t + M.length + b ∧ c < l + m + rr) by omega)]
        rfl

/-! ### Well-formedness of the growth phase output -/

theorem padMatrix_zero (x : α) (m : Nat) (M : List (List α)) :
    padMatrix x 0 0 0 0 m M = M := by
  unfold padMatrix
  simp

theorem growPhase_wf {s : GridState} (pol : Policy) (hw : rectangular s.grid)
    (hg : s.grid ≠ []) (hs : sameShape s.deathCounts s.grid) :
    ∃ g2 cts2, growPhase s pol = some (g2, cts2) ∧ rectangular g2 ∧ g2 ≠ [] ∧
      sameShape cts2 g2 := by
  cases pol with
  | finite => exact ⟨s.grid, s.deathCounts, rfl, hw, hg, hs⟩
  | toroidal => exact ⟨s.grid, s.deathCounts, rfl, hw, hg, hs⟩
  | infinite =>
    obtain ⟨sg, sc⟩ := s
    obtain ⟨f, hef⟩ := edgeFlags_isSome (g := sg) hg
    have hpos : 0 < amt f.top + sg.length + amt f.bottom := by
      have : sg.length ≠ 0 := fun h0 => hg (List.eq_nil_of_length_eq_zero h0)
      omega
    have hmapg := map_length_padMatrix false (amt f.top) (amt f.bottom) (amt f.left)
      (amt f.right) (cols sg) (fun row hrow => hw row hrow)
    have hmapc := map_length_padMatrix 0 (amt f.top) (amt f.bottom) (amt f.left)
      (amt f.right) (cols sg) (counts_row_length hs hw)
    refine ⟨_, _, growPhase_infinite_closed hef, rectangular_of_map_length hmapg hpos,
      ?_, ?_⟩
    · refine List.ne_nil_of_length_pos ?_
      rw [length_padMatrix]
      exact hpos
    · unfold sameShape
      rw [hmapg, hmapc, sameShape_length hs]

/-! ### Stepping an all-dead grid -/

theorem cellCurr_eq_false_of_blank {g : Grid} (h : isGridBlank g = true) (r c : Nat) :
    cellCurr g r c = false := by
  unfold isGridBlank at h
  rw [List.all_eq_true] at h
  unfold cellCurr entry
  rw [List.getD_eq_getElem?_getD g r ([] : List Bool)]
  cases hr : g[r]? with
  | none => simp
  | some row =>
    have hrow : row ∈ g := by rw [List.mem_iff_getElem?]; exact ⟨r, hr⟩
    have h2 := h row hrow
    rw [List.all_eq_true] at h2
    rw [Option.getD_some, List.getD_eq_getElem?_getD row c false]
    cases hcel : row[c]? with
    | none => simp
    | some cc =>
      have hmem : cc ∈ row := by rw [List.mem_iff_getElem?]; exact ⟨c, hcel⟩
      have h3 := h2 cc hmem
      rw [Option.getD_some]
      simpa using h3

theorem neighborSpec_of_blank {g : Grid} (h : isGridBlank g = true) (tor : Bool)
    (row col : Int) : neighborSpec g tor row col = 0 := by
  unfold neighborSpec
  refine List.sum_eq_zero ?_
  intro xv hx
  obtain ⟨dd, _, hdd⟩ := List.mem_map.mp hx
  rw [← hdd]
  unfold mooreContribution
  dsimp only
  cases tor with
  | true =>
    rw [if_pos rfl, cellCurr_eq_false_of_blank h]
    rfl
  | false =>
    rw [if_neg (by simp)]
    split
    · rw [cellCurr_eq_false_of_blank h]
      rfl
    · rfl

theorem finiteNeighborCount_of_blank {g : Grid} (h : isGridBlank g = true)
    (row col : Int) : finiteNeighborCount g row col = 0 := by
  unfold finiteNeighborCount
  refine List.sum_eq_zero ?_
  intro xv hx
  obtain ⟨dd, _, hdd⟩ := List.mem_map.mp hx
  rw [← hdd]
  dsimp only
  split
  · rw [cellCurr_eq_false_of_blank h]
    rfl
  · rfl

theorem isGridBlank_nextGridSpec_of_blank {g : Grid} (h : isGridBlank g = true)
    (tor : Bool) : isGridBlank (nextGridSpec g tor) = true := by
  unfold isGridBlank nextGridSpec
  rw [List.all_eq_true]
  intro row hrow
  obtain ⟨r, _, hr⟩ := List.mem_map.mp hrow
  rw [← hr, List.all_eq_true]
  intro cell hcell
  obtain ⟨c, _, hcv⟩ := List.mem_map.mp hcell
  rw [← hcv, cellCurr_eq_false_of_blank h, neighborSpec_of_blank h]
  rfl

theorem transitionsSpec_of_blank {g : Grid} (h : isGridBlank g = true) (tor : Bool) :
    transitionsSpec g tor = [] := by
  unfold transitionsSpec
  rw [List.filterMap_eq_nil_iff]
  intro rc _
  dsimp only
  rw [cellCurr_eq_false_of_blank h, neighborSpec_of_blank h]
  simp [ruleNext]

theorem changedSpecF_of_blank {g : Grid} (h : isGridBlank g = true) (tor : Bool) :
    changedSpecF g tor = false := by
  unfold changedSpecF
  rw [List.any_eq_false]
  intro rc _
  rw [cellCurr_eq_false_of_blank h, neighborSpec_of_blank h]
  simp [ruleNext]

theorem countsSpec_of_blank {g : Grid} (h : isGridBlank g = true) (tor : Bool)
    (cts : Counts) : countsSpec g tor cts = cts := by
  unfold countsSpec
  have hfil : (cellsList g.length (cols g)).filter (diedAt g tor) = [] := by
    rw [List.filter_eq_nil_iff]
    intro rc _
    unfold diedAt
    rw [cellCurr_eq_false_of_blank h]
    simp
  rw [hfil]
  rfl

theorem edgeFlags_of_blank {g : Grid} (hg : g ≠ []) (h : isGridBlank g = true) :
    edgeFlags g = some ⟨false, false, false, false⟩ := by
  cases g with
  | nil => exact absurd rfl hg
  | cons r0 grest =>
    have hany : ∀ (l : List Nat) (f : Nat → Int) (f2 : Nat → Int),
        (l.any fun i => finiteNeighborCount (r0 :: grest) (f i) (f2 i) == 3) = false := by
      intro l f f2
      rw [List.any_eq_false]
      intro i _
      rw [finiteNeighborCount_of_blank h]
      simp
    unfold edgeFlags
    rw [hany (List.range (cols (r0 :: grest))) (fun _ => (-1 : Int)) (fun c => (c : Int)),
      hany (List.range (cols (r0 :: grest))) (fun _ => ((r0 :: grest).length : Int))
        (fun c => (c : Int)),
      hany (List.range (r0 :: grest).length) (fun r => (r : Int)) (fun _ => (-1 : Int)),
      hany (List.range (r0 :: grest).length) (fun r => (r : Int))
        (fun _ => (cols (r0 :: grest) : Int))]

theorem growPhase_of_blank {g : Grid} {q : Counts} (hg : g ≠ [])
    (h : isGridBlank g = true) (pol : Policy) :
    growPhase ⟨g, q⟩ pol = some (g, q) := by
  cases pol with
  | finite => rfl
  | toroidal => rfl
  | infinite =>
    rw [growPhase_infinite_closed (edgeFlags_of_blank hg h)]
    have hamt : amt false = 0 := rfl
    rw [hamt, padMatrix_zero, padMatrix_zero]

/-! ### Small facts about the per-cell rule -/

theorem ruleNext_live {n : Nat} (h2 : 2 ≤ n) (h3 : n ≤ 3) : ruleNext true n = true := by
  unfold ruleNext
  rw [if_pos rfl, if_neg (by omega)]

theorem ruleNext_die {n : Nat} (h : n < 2 ∨ 3 < n) : ruleNext true n = false := by
  unfold ruleNext
  rw [if_pos rfl, if_pos h]

theorem ruleNext_birth : ruleNext false 3 = true := rfl

theorem ruleNext_dead {n : Nat} (h : n ≠ 3) : ruleNext false n = false := by
  unfold ruleNext
  rw [if_neg (by simp), if_neg (by simpa using h)]

/-! ### The claims -/

/-- C2: for every rectangular grid with at least one row and one column and
every in-bounds cell, `countAliveNeighbors` succeeds and returns exactly the
sum of the 8 Moore-offset contributions — wrapped via `((n + size) % size)`
under Toroidal, bounds-checked (out-of-range contributes 0) otherwise — and
that value is at most 8.  (The embedded function is pure, so determinism in
`(grid, row, col, policy)` is inherent.) -/
theorem c2_countAliveNeighbors (g : Grid) (tor : Bool) (row col : Nat)
    (hw : rectangular g) (hr1 : 1 ≤ g.length) (hc1 : 1 ≤ cols g)
    (hr : row < g.length) (hc : col < cols g) :
    countAliveNeighbors g tor (row : Int) (col : Int) =
      some (neighborSpec g tor (row : Int) (col : Int)) ∧
    neighborSpec g tor (row : Int) (col : Int) ≤ 8 :=
  ⟨countAliveNeighbors_eq_spec hw (List.ne_nil_of_length_pos hr1) hc1 tor row col,
   neighborSpec_le_eight g tor row col⟩

/-- Witness for C2 at a concrete 2×2 grid under the toroidal policy. -/
theorem c2_countAliveNeighbors_witness :
    countAliveNeighbors [[true, false], [false, true]] true 0 1 =
      some (neighborSpec [[true, false], [false, true]] true 0 1) ∧
    neighborSpec [[true, false], [false, true]] true 0 1 ≤ 8 :=
  c2_countAliveNeighbors [[true, false], [false, true]] true 0 1
    (by decide) (by decide) (by decide) (by decide) (by decide)

/-- C5 (code bug): the activity counter is a `Uint16Array`, so the
alive→dead increment wraps: a cell whose count has reached 65535 has it
drop to 0 when it dies again, contradicting the guaranteed monotonic
non-decrease.  Evaluation at the failing state: a 1×2 Finite grid whose
alive cell (count 65535) dies. -/
theorem c5_uint16_wrap :
    stepFn ⟨[[true, false]], [[65535, 0]]⟩ Policy.finite =
      some ⟨⟨[[false, false]], [[0, 0]]⟩, [(0, 0, TransKind.death)], true⟩ ∧
    countAt [[0, 0]] 0 0 < countAt [[65535, 0]] 0 0 := by
  constructor
  · decide
  · decide

theorem isGridBlank_mkDeadGrid (a b : Nat) : isGridBlank (mkDeadGrid a b) = true := by
  unfold isGridBlank mkDeadGrid
  rw [List.all_eq_true]
  intro row hrow
  rw [List.eq_of_mem_replicate hrow, List.all_eq_true]
  intro cell hcell
  rw [List.eq_of_mem_replicate hcell]
  rfl

theorem sameShape_mkZeroCounts (a b : Nat) :
    sameShape (mkZeroCounts a b) (mkDeadGrid a b) := by
  unfold sameShape mkZeroCounts mkDeadGrid
  rw [List.map_replicate, List.map_replicate]
  simp

theorem countAt_mkZeroCounts (a b r c : Nat) : countAt (mkZeroCounts a b) r c = 0 := by
  unfold countAt entry mkZeroCounts
  rw [List.getD_eq_getElem?_getD (List.replicate a (List.replicate b 0)) r ([] : List Nat),
    List.getElem?_replicate]
  split
  · rw [Option.getD_some, List.getD_eq_getElem?_getD, List.getElem?_replicate]
    split
    · rfl
    · rfl
  · simp

/-- C7 counterexample: `createGrid(-1, 3)` does not fail at all —
`Array.from({length: -1}, ...)` clamps the length to 0 and returns an empty
grid — refuting "fails with InvalidSize when rows < 0 or cols < 0". -/
theorem c7_negative_rows_counterexample :
    ((-1 : Int) < 0) ∧ createGrid (-1) 3 = some ⟨[], []⟩ := by
  constructor
  · decide
  · rfl

/-- C7 (amended): creation only fails — with a `RangeError` from
`new Uint8Array(cols)`, there is no dedicated `InvalidSize` — when
`rows ≥ 1` and `cols < 0`; for `rows ≥ 0, cols ≥ 0` it returns the
`rows × cols` all-dead grid paired with an identically-shaped all-zero
activity structure; for `rows < 0` it silently returns the empty grid. -/
theorem c7_createGrid (rows ncols : Int) :
    (createGrid rows ncols = none ↔ 1 ≤ rows ∧ ncols < 0) ∧
    (0 ≤ rows → 0 ≤ ncols →
      createGrid rows ncols =
        some ⟨mkDeadGrid rows.toNat ncols.toNat, mkZeroCounts rows.toNat ncols.toNat⟩ ∧
      isGridBlank (mkDeadGrid rows.toNat ncols.toNat) = true ∧
      sameShape (mkZeroCounts rows.toNat ncols.toNat) (mkDeadGrid rows.toNat ncols.toNat) ∧
      (∀ r c, countAt (mkZeroCounts rows.toNat ncols.toNat) r c = 0)) ∧
    (rows < 0 → createGrid rows ncols = some ⟨[], []⟩) := by
  refine ⟨?_, ?_, ?_⟩
  · unfold createGrid
    by_cases h : 0 < rows ∧ ncols < 0
    · rw [if_pos h]
      constructor
      · intro _
        exact ⟨h.1, h.2⟩
      · intro _
        rfl
    · rw [if_neg h]
      constructor
      · intro hcon
        exact absurd hcon (by simp)
      · intro hcon
        exact absurd (show (0 : Int) < rows ∧ ncols < 0 by omega) h
  · intro hr hc
    refine ⟨?_, isGridBlank_mkDeadGrid _ _, sameShape_mkZeroCounts _ _,
      fun r c => countAt_mkZeroCounts _ _ r c⟩
    unfold createGrid
    rw [if_neg (by omega)]
    rfl
  · intro hr
    unfold createGrid
    rw [if_neg (by omega)]
    rw [show rows.toNat = 0 from Int.toNat_of_nonpos (by omega)]
    rfl

/-- Witness for C7 at `rows = 2`, `cols = 3`. -/
theorem c7_createGrid_witness :
    createGrid 2 3 = some ⟨mkDeadGrid (2 : Int).toNat (3 : Int).toNat,
      mkZeroCounts (2 : Int).toNat (3 : Int).toNat⟩ ∧
    isGridBlank (mkDeadGrid (2 : Int).toNat (3 : Int).toNat) = true ∧
    sameShape (mkZeroCounts (2 : Int).toNat (3 : Int).toNat)
      (mkDeadGrid (2 : Int).toNat (3 : Int).toNat) ∧
    (∀ r c, countAt (mkZeroCounts (2 : Int).toNat (3 : Int).toNat) r c = 0) :=
  (c7_createGrid 2 3).2.1 (by decide) (by decide)

/-- C9: the interactive painting paths — `applyPreviewCells` (drag drawing)
and the single-cell toggle of the `mouseup` handler — only ever write
`this.grid`: whenever they succeed they leave the activity counts and the
transition map exactly as they were. -/
theorem c9_paint_frame (s : RunnerState) (cells : List (Nat × Nat)) (r c : Nat) :
    (∀ s2, applyPreviewCells s cells = some s2 →
      s2.deathCounts = s.deathCounts ∧ s2.transitions = s.transitions) ∧
    (∀ s2, toggleCell s r c = some s2 →
      s2.deathCounts = s.deathCounts ∧ s2.transitions = s.transitions) := by
  constructor
  · intro s2 h
    unfold applyPreviewCells at h
    cases hf : cells.foldlM (fun g rc => setCellAlive g rc.1 rc.2) s.grid with
    | none => rw [hf] at h; exact absurd h (by simp)
    | some g2 =>
      rw [hf] at h
      rw [Option.map_some'] at h
      rw [← Option.some.inj h]
      exact ⟨rfl, rfl⟩
  · intro s2 h
    unfold toggleCell at h
    cases hget : s.grid.get? r with
    | none => rw [hget] at h; exact absurd h (by simp)
    | some row =>
      rw [hget] at h
      rw [← Option.some.inj h]
      exact ⟨rfl, rfl⟩

/-- Witness for C9: painting cell (0,0) of a 1×1 grid leaves counts and
transitions untouched. -/
theorem c9_paint_frame_witness :
    RunnerState.deathCounts ⟨[[true]], [[7]], []⟩ =
      RunnerState.deathCounts ⟨[[false]], [[7]], []⟩ ∧
    RunnerState.transitions ⟨[[true]], [[7]], []⟩ =
      RunnerState.transitions ⟨[[false]], [[7]], []⟩ :=
  (c9_paint_frame ⟨[[false]], [[7]], []⟩ [(0, 0)] 0 0).1 ⟨[[true]], [[7]], []⟩ (by decide)

/-- C10: on rectangular grids with at least one row and one column, `step`
and `countAliveNeighbors` never take the error branch (no out-of-range row
or column access); creation permits a 0-row grid, but `step` on the empty
grid reads `grid[0].length` (and Toroidal wrapping would be mod 0) and is
undefined — the embedding returns `none` — under every policy. -/
theorem c10_step_totality (g : Grid) (cts : Counts) (pol : Policy)
    (hw : rectangular g) (hr1 : 1 ≤ g.length) (hc1 : 1 ≤ cols g)
    (hs : sameShape cts g) :
    ((stepFn ⟨g, cts⟩ pol).isSome = true ∧
     ∀ r c, r < g.length → c < cols g →
       (countAliveNeighbors g (pol == Policy.toroidal) (r : Int) (c : Int)).isSome = true) ∧
    createGrid 0 0 = some ⟨[], []⟩ ∧
    (∀ pol2 : Policy, ∀ cts2 : Counts, stepFn ⟨[], cts2⟩ pol2 = none) := by
  have hg : g ≠ [] := List.ne_nil_of_length_pos hr1
  refine ⟨⟨?_, ?_⟩, rfl, ?_⟩
  · obtain ⟨g2, cts2, hgrow, hw2, hg2, hs2⟩ := growPhase_wf (s := ⟨g, cts⟩) pol hw hg hs
    rw [stepFn_eq_spec hgrow hw2 hg2 (le_of_eq (sameShape_length hs2).symm)]
    rfl
  · intro r c _ _
    rw [countAliveNeighbors_eq_spec hw hg hc1 _ (r : Int) (c : Int)]
    rfl
  · intro pol2 cts2
    cases pol2 <;> rfl

/-- Witness for C10 at a 1×1 grid with the Finite policy. -/
theorem c10_step_totality_witness :
    ((stepFn ⟨[[true]], [[0]]⟩ Policy.finite).isSome = true ∧
     ∀ r c, r < List.length [[true]] → c < cols [[true]] →
       (countAliveNeighbors [[true]] (Policy.finite == Policy.toroidal)
         (r : Int) (c : Int)).isSome = true) ∧
    createGrid 0 0 = some ⟨[], []⟩ ∧
    (∀ pol2 : Policy, ∀ cts2 : Counts, stepFn ⟨[], cts2⟩ pol2 = none) :=
  c10_step_totality [[true]] [[0]] Policy.finite (by decide) (by decide) (by decide)
    (by decide)

/-- C1 counterexample: the claim's "activity count increments by exactly 1"
fails at the `Uint16` boundary — a 1×1 grid whose alive cell has count
65535 steps to count 0, not 65536. -/
theorem c1_wrap_counterexample :
    stepFn ⟨[[true]], [[65535]]⟩ Policy.finite =
      some ⟨⟨[[false]], [[0]]⟩, [(0, 0, TransKind.death)], true⟩ ∧
    ¬ countAt [[0]] 0 0 = countAt [[65535]] 0 0 + 1 := by
  constructor
  · decide
  · decide

/-- C1 (amended): one step computes every cell of the next generation from
the pre-step (post-growth) grid alone, via the second buffer: an alive cell
with 2 or 3 live neighbours stays alive, its count unchanged and no event
recorded; an alive cell with fewer than 2 or more than 3 live neighbours
dies, its activity count becomes `(old + 1) % 2^16` (an increment by
exactly 1 whenever the count is below 65535 — the `Uint16` store wraps),
and a Death transition is recorded for `(r, c)`; a dead cell with exactly 3
live neighbours is born with a Birth transition; any other dead cell stays
dead, counts untouched, and records no event. -/
theorem c1_step_rule (s : GridState) (pol : Policy) (g2 : Grid) (cts2 : Counts)
    (r c : Nat) (hgrow : growPhase s pol = some (g2, cts2)) (hw : rectangular g2)
    (hg : g2 ≠ []) (hs : sameShape cts2 g2) (hr : r < g2.length) (hc : c < cols g2) :
    ∃ res, stepFn s pol = some res ∧
      cellCurr res.state.grid r c =
        ruleNext (cellCurr g2 r c)
          (neighborSpec g2 (pol == Policy.toroidal) (r : Int) (c : Int)) ∧
      (cellCurr g2 r c = true →
        2 ≤ neighborSpec g2 (pol == Policy.toroidal) (r : Int) (c : Int) →
        neighborSpec g2 (pol == Policy.toroidal) (r : Int) (c : Int) ≤ 3 →
        cellCurr res.state.grid r c = true ∧
        countAt res.state.deathCounts r c = countAt cts2 r c ∧
        ∀ k, (r, c, k) ∉ res.transitions) ∧
      (cellCurr g2 r c = true →
        (neighborSpec g2 (pol == Policy.toroidal) (r : Int) (c : Int) < 2 ∨
         3 < neighborSpec g2 (pol == Policy.toroidal) (r : Int) (c : Int)) →
        cellCurr res.state.grid r c = false ∧
        countAt res.state.deathCounts r c = (countAt cts2 r c + 1) % 65536 ∧
        (r, c, TransKind.death) ∈ res.transitions) ∧
      (cellCurr g2 r c = false →
        neighborSpec g2 (pol == Policy.toroidal) (r : Int) (c : Int) = 3 →
        cellCurr res.state.grid r c = true ∧
        countAt res.state.deathCounts r c = countAt cts2 r c ∧
        (r, c, TransKind.birth) ∈ res.transitions) ∧
      (cellCurr g2 r c = false →
        neighborSpec g2 (pol == Policy.toroidal) (r : Int) (c : Int) ≠ 3 →
        cellCurr res.state.grid r c = false ∧
        countAt res.state.deathCounts r c = countAt cts2 r c ∧
        ∀ k, (r, c, k) ∉ res.transitions) := by
  have hlen : g2.length ≤ cts2.length := le_of_eq (sameShape_length hs).symm
  refine ⟨_, stepFn_eq_spec hgrow hw hg hlen, ?_, ?_, ?_, ?_, ?_⟩
  · exact cellCurr_nextGridSpec (pol == Policy.toroidal) hr hc
  · intro hcell h2 h3
    have hrule : ruleNext (cellCurr g2 r c)
        (neighborSpec g2 (pol == Policy.toroidal) (r : Int) (c : Int)) = true := by
      rw [hcell]
      exact ruleNext_live h2 h3
    refine ⟨by rw [cellCurr_nextGridSpec (pol == Policy.toroidal) hr hc, hrule], ?_, ?_⟩
    · rw [countAt_countsSpec (pol == Policy.toroidal) hw hs r c, if_neg]
      intro hcon
      have hdied := hcon.2.2
      unfold diedAt at hdied
      rw [hrule] at hdied
      simp at hdied
    · intro k hk
      have hmem := (mem_transitionsSpec hr hc).mp hk
      rw [hrule, hcell] at hmem
      exact hmem.1 rfl
  · intro hcell hn
    have hrule : ruleNext (cellCurr g2 r c)
        (neighborSpec g2 (pol == Policy.toroidal) (r : Int) (c : Int)) = false := by
      rw [hcell]
      exact ruleNext_die hn
    refine ⟨by rw [cellCurr_nextGridSpec (pol == Policy.toroidal) hr hc, hrule], ?_, ?_⟩
    · rw [countAt_countsSpec (pol == Policy.toroidal) hw hs r c, if_pos]
      refine ⟨hr, hc, ?_⟩
      unfold diedAt
      rw [hrule, hcell]
      rfl
    · refine (mem_transitionsSpec hr hc).mpr ⟨?_, ?_⟩
      · rw [hrule, hcell]
        simp
      · rw [hrule]
        rfl
  · intro hcell hn
    have hrule : ruleNext (cellCurr g2 r c)
        (neighborSpec g2 (pol == Policy.toroidal) (r : Int) (c : Int)) = true := by
      rw [hcell, hn]
      exact ruleNext_birth
    refine ⟨by rw [cellCurr_nextGridSpec (pol == Policy.toroidal) hr hc, hrule], ?_, ?_⟩
    · rw [countAt_countsSpec (pol == Policy.toroidal) hw hs r c, if_neg]
      intro hcon
      have hdied := hcon.2.2
      unfold diedAt at hdied
      rw [hcell] at hdied
      simp at hdied
    · refine (mem_transitionsSpec hr hc).mpr ⟨?_, ?_⟩
      · rw [hrule, hcell]
        simp
      · rw [hrule]
        rfl
  · intro hcell hn
    have hrule : ruleNext (cellCurr g2 r c)
        (neighborSpec g2 (pol == Policy.toroidal) (r : Int) (c : Int)) = false := by
      rw [hcell]
      exact ruleNext_dead hn
    refine ⟨by rw [cellCurr_nextGridSpec (pol == Policy.toroidal) hr hc, hrule], ?_, ?_⟩
    · rw [countAt_countsSpec (pol == Policy.toroidal) hw hs r c, if_neg]
      intro hcon
      have hdied := hcon.2.2
      unfold diedAt at hdied
      rw [hcell] at hdied
      simp at hdied
    · intro k hk
      have hmem := (mem_transitionsSpec hr hc).mp hk
      rw [hrule, hcell] at hmem
      exact hmem.1 rfl

/-- Witness for C1: a 2×2 Finite grid whose single alive cell dies of
under-population. -/
theorem c1_step_rule_witness :
    ∃ res, stepFn ⟨[[true, false], [false, false]], [[5, 0], [0, 0]]⟩ Policy.finite =
        some res ∧
      cellCurr res.state.grid 0 0 =
        ruleNext (cellCurr [[true, false], [false, false]] 0 0)
          (neighborSpec [[true, false], [false, false]]
            (Policy.finite == Policy.toroidal) 0 0) ∧
      (cellCurr [[true, false], [false, false]] 0 0 = true →
        2 ≤ neighborSpec [[true, false], [false, false]]
          (Policy.finite == Policy.toroidal) 0 0 →
        neighborSpec [[true, false], [false, false]]
          (Policy.finite == Policy.toroidal) 0 0 ≤ 3 →
        cellCurr res.state.grid 0 0 = true ∧
        countAt res.state.deathCounts 0 0 = countAt [[5, 0], [0, 0]] 0 0 ∧
        ∀ k, (0, 0, k) ∉ res.transitions) ∧
      (cellCurr [[true, false], [false, false]] 0 0 = true →
        (neighborSpec [[true, false], [false, false]]
           (Policy.finite == Policy.toroidal) 0 0 < 2 ∨
         3 < neighborSpec [[true, false], [false, false]]
           (Policy.finite == Policy.toroidal) 0 0) →
        cellCurr res.state.grid 0 0 = false ∧
        countAt res.state.deathCounts 0 0 = (countAt [[5, 0], [0, 0]] 0 0 + 1) % 65536 ∧
        (0, 0, TransKind.death) ∈ res.transitions) ∧
      (cellCurr [[true, false], [false, false]] 0 0 = false →
        neighborSpec [[true, false], [false, false]]
          (Policy.finite == Policy.toroidal) 0 0 = 3 →
        cellCurr res.state.grid 0 0 = true ∧
        countAt res.state.deathCounts 0 0 = countAt [[5, 0], [0, 0]] 0 0 ∧
        (0, 0, TransKind.birth) ∈ res.transitions) ∧
      (cellCurr [[true, false], [false, false]] 0 0 = false →
        neighborSpec [[true, false], [false, false]]
          (Policy.finite == Policy.toroidal) 0 0 ≠ 3 →
        cellCurr res.state.grid 0 0 = false ∧
        countAt res.state.deathCounts 0 0 = countAt [[5, 0], [0, 0]] 0 0 ∧
        ∀ k, (0, 0, k) ∉ res.transitions) :=
  c1_step_rule ⟨[[true, false], [false, false]], [[5, 0], [0, 0]]⟩ Policy.finite
    [[true, false], [false, false]] [[5, 0], [0, 0]] 0 0 rfl
    (by decide) (by decide) (by decide) (by decide) (by decide)

/-- C4 counterexample: on the 3×3 toroidal grid the blinker overlaps itself
through the wrap — after one step every cell is alive, after two steps every
cell is dead — so `step(step(g))` is the all-dead grid, not `g`. -/
theorem c4_blinker3_counterexample :
    (((stepFn ⟨[[false, true, false], [false, true, false], [false, true, false]],
        [[0, 0, 0], [0, 0, 0], [0, 0, 0]]⟩ Policy.toroidal).bind fun r1 =>
        stepFn r1.state Policy.toroidal).map fun r2 => r2.state.grid) =
      some [[false, false, false], [false, false, false], [false, false, false]] ∧
    [[false, false, false], [false, false, false], [false, false, false]] ≠
      ([[false, true, false], [false, true, false], [false, true, false]] : Grid) := by
  constructor
  · decide
  · decide

/-- C4 (amended): on a toroidal grid large enough that the blinker does not
overlap itself through the wrap — 5×5 here, with the three live cells at
`(0,1), (1,1), (2,1)` — two steps return the original cell configuration:
`step(step(g)) == g` on the grid component. -/
theorem c4_blinker5_period_two :
    (((stepFn ⟨[[false, true, false, false, false],
                [false, true, false, false, false],
                [false, true, false, false, false],
                [false, false, false, false, false],
                [false, false, false, false, false]],
        [[0, 0, 0, 0, 0], [0, 0, 0, 0, 0], [0, 0, 0, 0, 0], [0, 0, 0, 0, 0],
         [0, 0, 0, 0, 0]]⟩ Policy.toroidal).bind fun r1 =>
        stepFn r1.state Policy.toroidal).map fun r2 => r2.state.grid) =
      some [[false, true, false, false, false],
            [false, true, false, false, false],
            [false, true, false, false, false],
            [false, false, false, false, false],
            [false, false, false, false, false]] := by
  decide

/-- C6 counterexample: passing a second buffer of the wrong shape (2×1
versus the 1×1 grid) does not fail — the step reallocates the buffer and
completes the generation. -/
theorem c6_mismatch_proceeds :
    nextBufferOk [[false], [false]] 1 1 = false ∧
    stepWithBuffer ⟨[[true]], [[0]]⟩ [[false], [false]] Policy.finite =
      some ⟨⟨[[false]], [[1]]⟩, [(0, 0, TransKind.death)], true⟩ := by
  constructor
  · decide
  · decide

/-- C6 (amended): `step` never fails on a buffer shape mismatch.  When the
second buffer fails the source's shape test (row count or first-row length
different from the grid), the buffer is discarded, a fresh all-dead buffer
of the right shape is allocated, and the step proceeds — producing exactly
the result of a step with a fresh buffer. -/
theorem c6_mismatch_reallocates (s : GridState) (buf : Grid) (pol : Policy)
    (h : ∀ g2 cts2, growPhase s pol = some (g2, cts2) →
      nextBufferOk buf g2.length (cols g2) = false) :
    stepWithBuffer s buf pol = stepFn s pol := by
  unfold stepFn stepWithBuffer
  cases hgp : growPhase s pol with
  | none => rfl
  | some gc =>
    obtain ⟨g2, cts2⟩ := gc
    cases g2 with
    | nil => rfl
    | cons r0 grest =>
      have hb := h _ _ hgp
      have hb2 : nextBufferOk [] (r0 :: grest).length (cols (r0 :: grest)) = false := by
        unfold nextBufferOk
        simp
      dsimp only
      rw [hb, hb2]
      simp only [Bool.false_eq_true, if_false]

/-- Witness for C6 at a 1×2 grid with a stale 1×1 buffer. -/
theorem c6_mismatch_reallocates_witness :
    stepWithBuffer ⟨[[true, true]], [[0, 0]]⟩ [[false]] Policy.finite =
      stepFn ⟨[[true, true]], [[0, 0]]⟩ Policy.finite :=
  c6_mismatch_reallocates ⟨[[true, true]], [[0, 0]]⟩ [[false]] Policy.finite
    (fun g2 cts2 h => by
      have hp := Option.some.inj h
      have h1 : g2 = [[true, true]] := (congrArg Prod.fst hp).symm
      rw [h1]
      decide)

/-- C8 counterexample: the empty grid (0 rows — a size creation permits) is
vacuously all-dead, yet `step` on it fails (`grid[0].length`) instead of
returning an all-dead grid with `changed = false`. -/
theorem c8_empty_grid_counterexample :
    isGridBlank ([] : Grid) = true ∧ stepFn ⟨[], []⟩ Policy.finite = none := by
  constructor
  · rfl
  · rfl

/-- C8 (amended): for every rectangular, *nonempty* all-dead grid, under
every policy, `step` succeeds and returns a grid in which all cells are
still dead, zero transitions, `changed = false`, and untouched activity
counts. -/
theorem c8_all_dead_fixed (s : GridState) (pol : Policy) (hw : rectangular s.grid)
    (hg : s.grid ≠ []) (hs : sameShape s.deathCounts s.grid)
    (hblank : isGridBlank s.grid = true) :
    ∃ res, stepFn s pol = some res ∧ isGridBlank res.state.grid = true ∧
      res.transitions = [] ∧ res.changed = false ∧
      res.state.deathCounts = s.deathCounts := by
  obtain ⟨sg, sc⟩ := s
  have hgrow := growPhase_of_blank (g := sg) (q := sc) hg hblank pol
  have hlen : sg.length ≤ sc.length := le_of_eq (sameShape_length hs).symm
  refine ⟨_, stepFn_eq_spec hgrow hw hg hlen, ?_, ?_, ?_, ?_⟩
  · exact isGridBlank_nextGridSpec_of_blank hblank _
  · exact transitionsSpec_of_blank hblank _
  · exact changedSpecF_of_blank hblank _
  · exact countsSpec_of_blank hblank _ sc

/-- Witness for C8: a 2×1 all-dead toroidal grid. -/
theorem c8_all_dead_fixed_witness :
    ∃ res, stepFn ⟨[[false], [false]], [[0], [0]]⟩ Policy.toroidal = some res ∧
      isGridBlank res.state.grid = true ∧ res.transitions = [] ∧
      res.changed = false ∧ res.state.deathCounts = [[0], [0]] :=
  c8_all_dead_fixed ⟨[[false], [false]], [[0], [0]]⟩ Policy.toroidal
    (by decide) (by decide) (by decide) (by decide)

theorem any_range_count_iff {n : Nat} {fc : Nat → Nat} :
    ((List.range n).any fun i => fc i == 3) = true ↔ ∃ i < n, fc i = 3 := by
  rw [List.any_eq_true]
  constructor
  · rintro ⟨i, hi, hp⟩
    exact ⟨i, List.mem_range.mp hi, by simpa using hp⟩
  · rintro ⟨i, hi, hp⟩
    exact ⟨i, List.mem_range.mpr hi, by simpa using hp⟩

/-- C3: under the Unbounded policy, each of the four edges is flagged
exactly when some (dead) virtual cell just beyond it has a Moore
neighbourhood of exactly 3 live cells under Finite (out-of-range = dead)
semantics; every flagged edge — independently, growth on one edge never
suppressing another — is expanded by exactly 10 all-dead rows or columns in
both the grid and the activity counts, with all existing cells and counts
preserved at their shifted positions and all new cells dead with count 0;
and the growth happens strictly before the neighbour-counting pass: the
rule pass of the same tick evaluates every cell on the grown grid. -/
theorem c3_unbounded_growth (g : Grid) (cts : Counts) (f : EdgeFlags)
    (hw : rectangular g) (hg : g ≠ []) (hc1 : 1 ≤ cols g) (hs : sameShape cts g)
    (hef : edgeFlags g = some f) :
    ((f.top = true ↔ ∃ c < cols g, finiteNeighborCount g (-1) (c : Int) = 3) ∧
     (f.bottom = true ↔
       ∃ c < cols g, finiteNeighborCount g (g.length : Int) (c : Int) = 3) ∧
     (f.left = true ↔ ∃ r < g.length, finiteNeighborCount g (r : Int) (-1) = 3) ∧
     (f.right = true ↔
       ∃ r < g.length, finiteNeighborCount g (r : Int) (cols g : Int) = 3)) ∧
    ∃ g2 cts2, growPhase ⟨g, cts⟩ Policy.infinite = some (g2, cts2) ∧
      g2.length = amt f.top + g.length + amt f.bottom ∧
      cols g2 = amt f.left + cols g + amt f.right ∧
      (∀ r c, r < g.length → c < cols g →
        cellCurr g2 (amt f.top + r) (amt f.left + c) = cellCurr g r c ∧
        countAt cts2 (amt f.top + r) (amt f.left + c) = countAt cts r c) ∧
      (∀ r c, ¬(amt f.top ≤ r ∧ r < amt f.top + g.length ∧
                amt f.left ≤ c ∧ c < amt f.left + cols g) →
        cellCurr g2 r c = false ∧ countAt cts2 r c = 0) ∧
      ∃ res, stepFn ⟨g, cts⟩ Policy.infinite = some res ∧
        ∀ r c, r < g2.length → c < cols g2 →
          cellCurr res.state.grid r c =
            ruleNext (cellCurr g2 r c) (neighborSpec g2 false (r : Int) (c : Int)) := by
  have hpos : 0 < amt f.top + g.length + amt f.bottom := by
    have hlg : g.length ≠ 0 := fun h0 => hg (List.eq_nil_of_length_eq_zero h0)
    omega
  have hmapg := map_length_padMatrix false (amt f.top) (amt f.bottom) (amt f.left)
    (amt f.right) (cols g) (fun row hrow => hw row hrow)
  have hmapc := map_length_padMatrix 0 (amt f.top) (amt f.bottom) (amt f.left)
    (amt f.right) (cols g) (counts_row_length hs hw)
  have hw2 : rectangular
      (padMatrix false (amt f.top) (amt f.bottom) (amt f.left) (amt f.right) (cols g) g) :=
    rectangular_of_map_length hmapg hpos
  have hg2 : padMatrix false (amt f.top) (amt f.bottom) (amt f.left) (amt f.right)
      (cols g) g ≠ [] := by
    refine List.ne_nil_of_length_pos ?_
    rw [length_padMatrix]
    exact hpos
  have hs2 : sameShape
      (padMatrix 0 (amt f.top) (amt f.bottom) (amt f.left) (amt f.right) (cols g) cts)
      (padMatrix false (amt f.top) (amt f.bottom) (amt f.left) (amt f.right) (cols g) g) := by
    unfold sameShape
    rw [hmapg, hmapc, sameShape_length hs]
  constructor
  · cases g with
    | nil => exact absurd rfl hg
    | cons r0 grest =>
      have hf := (Option.some.inj hef).symm
      refine ⟨?_, ?_, ?_, ?_⟩ <;> rw [hf] <;> exact any_range_count_iff
  · refine ⟨_, _, growPhase_infinite_closed hef, ?_, ?_, ?_, ?_, ?_⟩
    · exact length_padMatrix false (amt f.top) (amt f.bottom) (amt f.left) (amt f.right)
        (cols g) g
    · exact cols_eq_of_map_length hmapg hpos
    · intro r c hr hc
      constructor
      · unfold cellCurr
        rw [entry_padMatrix false false (amt f.top) (amt f.bottom) (amt f.left)
          (amt f.right) (cols g) (fun row hrow => hw row hrow) (amt f.top + r)
          (amt f.left + c)]
        rw [if_pos (show amt f.top ≤ amt f.top + r ∧
            amt f.top + r < amt f.top + g.length ∧ amt f.left ≤ amt f.left + c ∧
            amt f.left + c < amt f.left + cols g by omega)]
        rw [Nat.add_sub_cancel_left, Nat.add_sub_cancel_left]
      · unfold countAt
        rw [entry_padMatrix 0 0 (amt f.top) (amt f.bottom) (amt f.left)
          (amt f.right) (cols g) (counts_row_length hs hw) (amt f.top + r)
          (amt f.left + c)]
        have hclen : cts.length = g.length := sameShape_length hs
        rw [if_pos (show amt f.top ≤ amt f.top + r ∧
            amt f.top + r < amt f.top + cts.length ∧ amt f.left ≤ amt f.left + c ∧
            amt f.left + c < amt f.left + cols g by omega)]
        rw [Nat.add_sub_cancel_left, Nat.add_sub_cancel_left]
    · intro r c hcon
      have hclen : cts.length = g.length := sameShape_length hs
      constructor
      · unfold cellCurr
        rw [entry_padMatrix false false (amt f.top) (amt f.bottom) (amt f.left)
          (amt f.right) (cols g) (fun row hrow => hw row hrow) r c]
        rw [if_neg hcon]
        split
        · rfl
        · rfl
      · unfold countAt
        rw [entry_padMatrix 0 0 (amt f.top) (amt f.bottom) (amt f.left)
          (amt f.right) (cols g) (counts_row_length hs hw) r c]
        rw [if_neg (by rw [hclen]; exact hcon)]
        split
        · rfl
        · rfl
    · refine ⟨_, stepFn_eq_spec (growPhase_infinite_closed hef) hw2 hg2
        (le_of_eq (sameShape_length hs2).symm), ?_⟩
      intro r c hr hc
      exact cellCurr_nextGridSpec (Policy.infinite == Policy.toroidal) hr hc

/-- Witness for C3: a 1×3 all-alive grid flags the top and bottom edges
(each adjacent virtual middle cell has exactly 3 live neighbours) and not
the sides, so the grid grows to 21×3. -/
theorem c3_unbounded_growth_witness :
    (((true : Bool) = true ↔
        ∃ c : Nat, c < 3 ∧ finiteNeighborCount [[true, true, true]] (-1) (c : Int) = 3) ∧
     ((true : Bool) = true ↔
        ∃ c : Nat, c < 3 ∧ finiteNeighborCount [[true, true, true]] (1 : Int) (c : Int) = 3) ∧
     ((false : Bool) = true ↔
        ∃ r : Nat, r < 1 ∧ finiteNeighborCount [[true, true, true]] (r : Int) (-1) = 3) ∧
     ((false : Bool) = true ↔
        ∃ r : Nat, r < 1 ∧ finiteNeighborCount [[true, true, true]] (r : Int) (3 : Int) = 3)) ∧
    ∃ g2 cts2, growPhase ⟨[[true, true, true]], [[0, 0, 0]]⟩ Policy.infinite =
        some (g2, cts2) ∧
      g2.length = 10 + 1 + 10 ∧
      cols g2 = 0 + 3 + 0 ∧
      (∀ r c, r < 1 → c < 3 →
        cellCurr g2 (10 + r) (0 + c) = cellCurr [[true, true, true]] r c ∧
        countAt cts2 (10 + r) (0 + c) = countAt [[0, 0, 0]] r c) ∧
      (∀ r c, ¬(10 ≤ r ∧ r < 10 + 1 ∧ 0 ≤ c ∧ c < 0 + 3) →
        cellCurr g2 r c = false ∧ countAt cts2 r c = 0) ∧
      ∃ res, stepFn ⟨[[true, true, true]], [[0, 0, 0]]⟩ Policy.infinite = some res ∧
        ∀ r c, r < g2.length → c < cols g2 →
          cellCurr res.state.grid r c =
            ruleNext (cellCurr g2 r c) (neighborSpec g2 false (r : Int) (c : Int)) :=
  c3_unbounded_growth [[true, true, true]] [[0, 0, 0]] ⟨true, true, false, false⟩
    (by decide) (by decide) (by decide) (by decide) (by decide)

end Conway
